/-
  Verification of the core game logic of a 4×4 2048 implementation
  (src/src/lib.rs).

  Embedding notes.
  * The grid is `[[u32; 4]; 4]`; cells are embedded as `Nat`.  Tile values
    are powers of two reachable from spawns of 2/4 on a 4×4 board (max
    2^17), far below 2^32, so `u32` overflow is unreachable and plain `Nat`
    arithmetic is the faithful model.
  * A row is a record of four cells `c0 c1 c2 c3` (index 0 leftmost).
  * `move_right` (lib.rs, `move_right`) processes each row independently:
    for j = 2,1,0, if `grid[i][j] != 0` the tile slides right through empty
    cells and may merge once into an equal neighbour whose `merged` flag is
    unset.  The per-call `merged` matrix is one row of `Bool` flags here
    (`m0..m3`), initialised to `false` at the start of every call.
    The `while` loop over `col` is unrolled into the step functions
    `stepR2`, `stepR1`, `stepR0` (the loop runs at most 3 iterations and
    `col` only increases).
  * `move_left` is the mirror image (lib.rs, `move_left`), j = 1,2,3,
    sliding toward index 0.
  * `move_up` / `move_down` (lib.rs) run the identical slide/merge loop
    along each column toward row 0 / row 3; column k of the grid is row k
    of the transposed grid, so they are embedded as the row procedures
    applied to the transpose.
-/
import Mathlib

namespace Game2048

/-- One row (or one column) of the 4×4 grid; cell 0 is the leftmost
(resp. topmost) cell.  Value 0 is an empty cell. -/
structure Row where
  c0 : Nat
  c1 : Nat
  c2 : Nat
  c3 : Nat
deriving DecidableEq, Repr

/-- The 4×4 grid, row 0 on top.  Mirrors `GameState.grid`. -/
structure Grid where
  r0 : Row
  r1 : Row
  r2 : Row
  r3 : Row
deriving DecidableEq, Repr

/-- State threaded through the processing of one line during one move
call: the current line contents, the `merged` flags of that line
(`merged` matrix of lib.rs, reset at the start of each move call), and the `moved` flag. -/
structure MState where
  row : Row
  m0 : Bool
  m1 : Bool
  m2 : Bool
  m3 : Bool
  moved : Bool
deriving DecidableEq, Repr

/-- Fresh per-call state for a line: all `merged` flags false, `moved`
false. -/
def initMState (r : Row) : MState :=
  ⟨r, false, false, false, false, false⟩

/-! ### Rightward processing of one row (lib.rs `move_right`, inner loops)

`stepRk` is the `while col < 3` loop entered with `col = k`.  Sliding into
an empty cell advances `col`; a merge or a blocked cell exits the loop. -/

/-- Loop iteration at `col = 2`: cell 3 empty → slide (then `col = 3`
ends the loop); cell 3 equal and unmerged → merge; else stop. -/
def stepR2 (s : MState) : MState :=
  if s.row.c3 = 0 then
    { s with row := { s.row with c3 := s.row.c2, c2 := 0 }, moved := true }
  else if s.row.c3 = s.row.c2 ∧ s.m3 = false then
    { s with row := { s.row with c3 := s.row.c3 * 2, c2 := 0 },
             m3 := true, moved := true }
  else s

/-- Loop iteration at `col = 1`; a slide continues the loop at `col = 2`. -/
def stepR1 (s : MState) : MState :=
  if s.row.c2 = 0 then
    stepR2 { s with row := { s.row with c2 := s.row.c1, c1 := 0 }, moved := true }
  else if s.row.c2 = s.row.c1 ∧ s.m2 = false then
    { s with row := { s.row with c2 := s.row.c2 * 2, c1 := 0 },
             m2 := true, moved := true }
  else s

/-- Loop iteration at `col = 0`; a slide continues the loop at `col = 1`. -/
def stepR0 (s : MState) : MState :=
  if s.row.c1 = 0 then
    stepR1 { s with row := { s.row with c1 := s.row.c0, c0 := 0 }, moved := true }
  else if s.row.c1 = s.row.c0 ∧ s.m1 = false then
    { s with row := { s.row with c1 := s.row.c1 * 2, c0 := 0 },
             m1 := true, moved := true }
  else s

/-- Process one row of `move_right`: `for j in (0..3).rev()`, skipping
empty source cells, with fresh `merged` flags. -/
def procRight (r : Row) : MState :=
  let s0 := initMState r
  let s1 := if s0.row.c2 ≠ 0 then stepR2 s0 else s0
  let s2 := if s1.row.c1 ≠ 0 then stepR1 s1 else s1
  if s2.row.c0 ≠ 0 then stepR0 s2 else s2

/-! ### Leftward processing of one row (lib.rs `move_left`, inner loops) -/

/-- Loop iteration at `col = 1`: cell 0 empty → slide (loop ends at
`col = 0`); cell 0 equal and unmerged → merge; else stop. -/
def stepL1 (s : MState) : MState :=
  if s.row.c0 = 0 then
    { s with row := { s.row with c0 := s.row.c1, c1 := 0 }, moved := true }
  else if s.row.c0 = s.row.c1 ∧ s.m0 = false then
    { s with row := { s.row with c0 := s.row.c0 * 2, c1 := 0 },
             m0 := true, moved := true }
  else s

/-- Loop iteration at `col = 2`; a slide continues the loop at `col = 1`. -/
def stepL2 (s : MState) : MState :=
  if s.row.c1 = 0 then
    stepL1 { s with row := { s.row with c1 := s.row.c2, c2 := 0 }, moved := true }
  else if s.row.c1 = s.row.c2 ∧ s.m1 = false then
    { s with row := { s.row with c1 := s.row.c1 * 2, c2 := 0 },
             m1 := true, moved := true }
  else s

/-- Loop iteration at `col = 3`; a slide continues the loop at `col = 2`. -/
def stepL3 (s : MState) : MState :=
  if s.row.c2 = 0 then
    stepL2 { s with row := { s.row with c2 := s.row.c3, c3 := 0 }, moved := true }
  else if s.row.c2 = s.row.c3 ∧ s.m2 = false then
    { s with row := { s.row with c2 := s.row.c2 * 2, c3 := 0 },
             m2 := true, moved := true }
  else s

/-- Process one row of `move_left`: `for j in 1..4`, skipping empty source
cells, with fresh `merged` flags. -/
def procLeft (r : Row) : MState :=
  let s0 := initMState r
  let s1 := if s0.row.c1 ≠ 0 then stepL1 s0 else s0
  let s2 := if s1.row.c2 ≠ 0 then stepL2 s1 else s1
  if s2.row.c3 ≠ 0 then stepL3 s2 else s2

/-- Whether any merge happened while processing this line (any `merged`
flag of the line was set during the call). -/
def mergedAny (s : MState) : Bool :=
  s.m0 || s.m1 || s.m2 || s.m3

/-! ### Grid-level moves (lib.rs `move_right`/`move_left`/`move_up`/`move_down`) -/

/-- `move_right`: each row is processed independently; `moved` is the
disjunction of the per-row flags (the source accumulates them by
assignment, which is the same). -/
def move_right (g : Grid) : Grid × Bool :=
  let s0 := procRight g.r0
  let s1 := procRight g.r1
  let s2 := procRight g.r2
  let s3 := procRight g.r3
  (⟨s0.row, s1.row, s2.row, s3.row⟩, s0.moved || s1.moved || s2.moved || s3.moved)

/-- `move_left`, row by row. -/
def move_left (g : Grid) : Grid × Bool :=
  let s0 := procLeft g.r0
  let s1 := procLeft g.r1
  let s2 := procLeft g.r2
  let s3 := procLeft g.r3
  (⟨s0.row, s1.row, s2.row, s3.row⟩, s0.moved || s1.moved || s2.moved || s3.moved)

/-- Transpose of the grid: row i of `transpose g` is column i of `g`. -/
def transpose (g : Grid) : Grid :=
  ⟨⟨g.r0.c0, g.r1.c0, g.r2.c0, g.r3.c0⟩,
   ⟨g.r0.c1, g.r1.c1, g.r2.c1, g.r3.c1⟩,
   ⟨g.r0.c2, g.r1.c2, g.r2.c2, g.r3.c2⟩,
   ⟨g.r0.c3, g.r1.c3, g.r2.c3, g.r3.c3⟩⟩

/-- `move_up` runs the leftward slide/merge loop along every column toward
row 0 (lib.rs `move_up` is `move_left` with the two indices swapped), i.e.
`move_left` on the transposed grid. -/
def move_up (g : Grid) : Grid × Bool :=
  let p := move_left (transpose g)
  (transpose p.1, p.2)

/-- `move_down` runs the rightward slide/merge loop along every column
toward row 3 (lib.rs `move_down` is `move_right` with indices swapped). -/
def move_down (g : Grid) : Grid × Bool :=
  let p := move_right (transpose g)
  (transpose p.1, p.2)

/-- The four directions (lib.rs `Direction`). -/
inductive Direction where
  | Up
  | Down
  | Left
  | Right
deriving DecidableEq, Repr

/-- `move_tiles`: dispatch on the direction (lib.rs `move_tiles`), acting
on the grid alone. -/
def move_tiles (d : Direction) (g : Grid) : Grid × Bool :=
  match d with
  | .Up => move_up g
  | .Down => move_down g
  | .Left => move_left g
  | .Right => move_right g

/-- Whether any merge happened during `move_tiles d g` (some `merged` flag
was set during the call).  Ghost observation used to state properties. -/
def move_merged (d : Direction) (g : Grid) : Bool :=
  match d with
  | .Up => mergedAny (procLeft (transpose g).r0) || mergedAny (procLeft (transpose g).r1) ||
      mergedAny (procLeft (transpose g).r2) || mergedAny (procLeft (transpose g).r3)
  | .Down => mergedAny (procRight (transpose g).r0) || mergedAny (procRight (transpose g).r1) ||
      mergedAny (procRight (transpose g).r2) || mergedAny (procRight (transpose g).r3)
  | .Left => mergedAny (procLeft g.r0) || mergedAny (procLeft g.r1) ||
      mergedAny (procLeft g.r2) || mergedAny (procLeft g.r3)
  | .Right => mergedAny (procRight g.r0) || mergedAny (procRight g.r1) ||
      mergedAny (procRight g.r2) || mergedAny (procRight g.r3)

/-! ### Measures and invariants used to state and prove the properties -/

/-- Sum of the cell values of one row. -/
def rowSum (r : Row) : Nat :=
  r.c0 + r.c1 + r.c2 + r.c3

/-- Sum of all cell values of the grid. -/
def gridSum (g : Grid) : Nat :=
  rowSum g.r0 + rowSum g.r1 + rowSum g.r2 + rowSum g.r3

/-- Rightward potential of a row: strictly increases at every slide or
merge performed by the rightward pass, because mass moves toward the
higher-weighted cells. -/
def rowWeightR (r : Row) : Nat :=
  r.c0 + 4 * r.c1 + 16 * r.c2 + 64 * r.c3

/-- Leftward potential, mirror of `rowWeightR`. -/
def rowWeightL (r : Row) : Nat :=
  64 * r.c0 + 16 * r.c1 + 4 * r.c2 + r.c3

/-- `v` is the value of one of the four cells of `r`. -/
def srcMem (v : Nat) (r : Row) : Prop :=
  v = r.c0 ∨ v = r.c1 ∨ v = r.c2 ∨ v = r.c3

/-- `v` is exactly double the value of some non-empty cell of `r`. -/
def dblMem (v : Nat) (r : Row) : Prop :=
  (v = 2 * r.c0 ∧ r.c0 ≠ 0) ∨ (v = 2 * r.c1 ∧ r.c1 ≠ 0) ∨
    (v = 2 * r.c2 ∧ r.c2 ≠ 0) ∨ (v = 2 * r.c3 ∧ r.c3 ≠ 0)

/-- Mid-run invariant of one cell relative to the original row `r₀`: a
cell whose `merged` flag is set holds exactly double an original tile
value; a cell whose flag is clear is empty or holds an original cell
value unchanged. -/
def cellOk (r₀ : Row) (m : Bool) (v : Nat) : Prop :=
  if m then dblMem v r₀ else (v = 0 ∨ srcMem v r₀)

/-- Mid-run invariant of a whole line state relative to the original row. -/
def Good (r₀ : Row) (s : MState) : Prop :=
  cellOk r₀ s.m0 s.row.c0 ∧ cellOk r₀ s.m1 s.row.c1 ∧
    cellOk r₀ s.m2 s.row.c2 ∧ cellOk r₀ s.m3 s.row.c3

/-- Cell 2 is blocked rightward: empty, or its right neighbour is
non-empty and different. -/
def settleAt2 (r : Row) : Prop :=
  r.c2 ≠ 0 → r.c3 ≠ 0 ∧ r.c3 ≠ r.c2

/-- Cell 1 is blocked rightward. -/
def settleAt1 (r : Row) : Prop :=
  r.c1 ≠ 0 → r.c2 ≠ 0 ∧ r.c2 ≠ r.c1

/-- Cell 0 is blocked rightward. -/
def settleAt0 (r : Row) : Prop :=
  r.c0 ≠ 0 → r.c1 ≠ 0 ∧ r.c1 ≠ r.c0

/-- A row on which the rightward pass has nothing left to do: every
non-empty cell among 0,1,2 is blocked by a non-empty, different right
neighbour. -/
def settledR (r : Row) : Prop :=
  settleAt2 r ∧ settleAt1 r ∧ settleAt0 r

/-- Cell 1 is blocked leftward. -/
def settleAt1L (r : Row) : Prop :=
  r.c1 ≠ 0 → r.c0 ≠ 0 ∧ r.c0 ≠ r.c1

/-- Cell 2 is blocked leftward. -/
def settleAt2L (r : Row) : Prop :=
  r.c2 ≠ 0 → r.c1 ≠ 0 ∧ r.c1 ≠ r.c2

/-- Cell 3 is blocked leftward. -/
def settleAt3L (r : Row) : Prop :=
  r.c3 ≠ 0 → r.c2 ≠ 0 ∧ r.c2 ≠ r.c3

/-- Mirror of `settledR` for the leftward pass. -/
def settledL (r : Row) : Prop :=
  settleAt1L r ∧ settleAt2L r ∧ settleAt3L r

/-! ### Cell access, game-over detection, spawning, session lifecycle -/

/-- A cell position `(i, j)`: row index `i`, column index `j`. -/
abbrev Pos := Fin 4 × Fin 4

/-- Cell `j` of a row. -/
def Row.get (r : Row) : Fin 4 → Nat
  | ⟨0, _⟩ => r.c0
  | ⟨1, _⟩ => r.c1
  | ⟨2, _⟩ => r.c2
  | ⟨3, _⟩ => r.c3

/-- Replace cell `j` of a row. -/
def Row.set (r : Row) : Fin 4 → Nat → Row
  | ⟨0, _⟩, v => { r with c0 := v }
  | ⟨1, _⟩, v => { r with c1 := v }
  | ⟨2, _⟩, v => { r with c2 := v }
  | ⟨3, _⟩, v => { r with c3 := v }

/-- Row `i` of the grid. -/
def Grid.row (g : Grid) : Fin 4 → Row
  | ⟨0, _⟩ => g.r0
  | ⟨1, _⟩ => g.r1
  | ⟨2, _⟩ => g.r2
  | ⟨3, _⟩ => g.r3

/-- Replace row `i` of the grid. -/
def Grid.setRow (g : Grid) : Fin 4 → Row → Grid
  | ⟨0, _⟩, r => { g with r0 := r }
  | ⟨1, _⟩, r => { g with r1 := r }
  | ⟨2, _⟩, r => { g with r2 := r }
  | ⟨3, _⟩, r => { g with r3 := r }

/-- Value of cell `grid[i][j]`. -/
def Grid.get (g : Grid) (p : Pos) : Nat :=
  (g.row p.1).get p.2

/-- `grid[i][j] = v`, leaving every other cell unchanged. -/
def Grid.set (g : Grid) (p : Pos) (v : Nat) : Grid :=
  g.setRow p.1 ((g.row p.1).set p.2 v)

/-- All sixteen positions in row-major order, the scan order of every loop
`for i in 0..4 { for j in 0..4 { ... } }` of lib.rs. -/
def allPositions : List Pos :=
  [(0, 0), (0, 1), (0, 2), (0, 3),
   (1, 0), (1, 1), (1, 2), (1, 3),
   (2, 0), (2, 1), (2, 2), (2, 3),
   (3, 0), (3, 1), (3, 2), (3, 3)]

/-- `has_moves_available` (lib.rs): the row-major scan unrolled.  For each
cell in row-major order: return true on an empty cell, on a match with
the right neighbour (only when `j < 3`), or on a match with the cell
below (only when `i < 3`).  The disjunction below lists exactly those
tests in scan order; early return and `||` agree on the result. -/
def has_moves_available (g : Grid) : Bool :=
  (g.r0.c0 == 0) || (g.r0.c0 == g.r0.c1) || (g.r0.c0 == g.r1.c0) ||
  (g.r0.c1 == 0) || (g.r0.c1 == g.r0.c2) || (g.r0.c1 == g.r1.c1) ||
  (g.r0.c2 == 0) || (g.r0.c2 == g.r0.c3) || (g.r0.c2 == g.r1.c2) ||
  (g.r0.c3 == 0) || (g.r0.c3 == g.r1.c3) ||
  (g.r1.c0 == 0) || (g.r1.c0 == g.r1.c1) || (g.r1.c0 == g.r2.c0) ||
  (g.r1.c1 == 0) || (g.r1.c1 == g.r1.c2) || (g.r1.c1 == g.r2.c1) ||
  (g.r1.c2 == 0) || (g.r1.c2 == g.r1.c3) || (g.r1.c2 == g.r2.c2) ||
  (g.r1.c3 == 0) || (g.r1.c3 == g.r2.c3) ||
  (g.r2.c0 == 0) || (g.r2.c0 == g.r2.c1) || (g.r2.c0 == g.r3.c0) ||
  (g.r2.c1 == 0) || (g.r2.c1 == g.r2.c2) || (g.r2.c1 == g.r3.c1) ||
  (g.r2.c2 == 0) || (g.r2.c2 == g.r2.c3) || (g.r2.c2 == g.r3.c2) ||
  (g.r2.c3 == 0) || (g.r2.c3 == g.r3.c3) ||
  (g.r3.c0 == 0) || (g.r3.c0 == g.r3.c1) ||
  (g.r3.c1 == 0) || (g.r3.c1 == g.r3.c2) ||
  (g.r3.c2 == 0) || (g.r3.c2 == g.r3.c3) ||
  (g.r3.c3 == 0)

/-- `check_game_over` (lib.rs): negation of `has_moves_available`. -/
def check_game_over (g : Grid) : Bool :=
  !has_moves_available g

/-- The empty cells of the grid, collected in row-major scan order
(`add_random_tile`, lib.rs, first loop). -/
def emptyCells (g : Grid) : List Pos :=
  allPositions.filter (fun p => g.get p == 0)

/-- `add_random_tile` (lib.rs): collect the empty cells; if none, do
nothing; otherwise place a 2 or a 4 in one of them.  The two random
draws are passed in explicitly: `k` selects the cell (`choose` picks
index `k % length`), and `b` is the outcome of `random() < 0.9`
(true = spawn a 2, false = spawn a 4). -/
def add_random_tile (g : Grid) (k : Nat) (b : Bool) : Grid :=
  let ec := emptyCells g
  if h : ec = [] then g
  else
    g.set (ec.get ⟨k % ec.length, Nat.mod_lt k (List.length_pos.mpr h)⟩)
      (if b then 2 else 4)

/-- The color palette inserted by `GameState::new` (lib.rs): tile value
mapped to an RGB triple. -/
def colorTable : List (Nat × Nat × Nat × Nat) :=
  [(0, 205, 193, 180), (2, 238, 228, 218), (4, 237, 224, 200),
   (8, 242, 177, 121), (16, 245, 149, 99), (32, 246, 124, 95),
   (64, 246, 94, 59), (128, 237, 207, 114), (256, 237, 204, 97),
   (512, 237, 200, 80), (1024, 237, 197, 63), (2048, 237, 194, 46)]

/-- The all-zero row. -/
def zeroRow : Row :=
  ⟨0, 0, 0, 0⟩

/-- The all-zero grid (`[[0; 4]; 4]`). -/
def zeroGrid : Grid :=
  ⟨zeroRow, zeroRow, zeroRow, zeroRow⟩

/-- The whole game state (lib.rs `GameState`): the grid, the color table
(modelled as an association list), and the game-over flag. -/
structure GameState where
  grid : Grid
  colors : List (Nat × Nat × Nat × Nat)
  game_over : Bool
deriving DecidableEq, Repr

/-- `GameState::new` (lib.rs): all-zero grid, the color palette, game
over false, then two spawns.  The four random draws of the two spawns
are explicit parameters. -/
def GameState.new (k1 k2 : Nat) (b1 b2 : Bool) : GameState :=
  ⟨add_random_tile (add_random_tile zeroGrid k1 b1) k2 b2, colorTable, false⟩

/-- `restart_game` (lib.rs): clear the grid, clear the game-over flag,
then two spawns; the colors are untouched. -/
def restart_game (s : GameState) (k1 k2 : Nat) (b1 b2 : Bool) : GameState :=
  ⟨add_random_tile (add_random_tile zeroGrid k1 b1) k2 b2, s.colors, false⟩

/-- `move_tiles` as the method on the whole state (lib.rs): it reads and
writes only the `grid` field; the per-call `merged` matrix lives inside
the four move functions and is created afresh at each call. -/
def move_tiles_state (s : GameState) (d : Direction) : GameState × Bool :=
  let p := move_tiles d s.grid
  ({ s with grid := p.1 }, p.2)

/-! ### Further measures used by the claims -/

/-- Number of non-empty cells of a row. -/
def rowCount (r : Row) : Nat :=
  (if r.c0 ≠ 0 then 1 else 0) + (if r.c1 ≠ 0 then 1 else 0) +
    (if r.c2 ≠ 0 then 1 else 0) + (if r.c3 ≠ 0 then 1 else 0)

/-- Number of non-empty cells of the grid. -/
def countNonzero (g : Grid) : Nat :=
  rowCount g.r0 + rowCount g.r1 + rowCount g.r2 + rowCount g.r3

/-- A cell value is empty or a power of two that is at least 2. -/
def powCell (v : Nat) : Prop :=
  v ≠ 0 → ∃ k, 1 ≤ k ∧ v = 2 ^ k

/-- Every cell of the row satisfies `powCell`. -/
def powRow (r : Row) : Prop :=
  powCell r.c0 ∧ powCell r.c1 ∧ powCell r.c2 ∧ powCell r.c3

/-- Every cell of the grid satisfies `powCell` (the spec's data-model
invariant). -/
def powGrid (g : Grid) : Prop :=
  powRow g.r0 ∧ powRow g.r1 ∧ powRow g.r2 ∧ powRow g.r3

/-- `v` is the value of one of the sixteen cells of `g`. -/
def memGrid (v : Nat) (g : Grid) : Prop :=
  srcMem v g.r0 ∨ srcMem v g.r1 ∨ srcMem v g.r2 ∨ srcMem v g.r3

/-- `v` is exactly double the value of some non-empty cell of `g`. -/
def dblGrid (v : Nat) (g : Grid) : Prop :=
  dblMem v g.r0 ∨ dblMem v g.r1 ∨ dblMem v g.r2 ∨ dblMem v g.r3

/-- Concrete grid whose first row is `[2,2,2,2]` (all other cells 0):
after one rightward move it becomes `[0,0,4,4]`, and a second rightward
move merges again. -/
def gridTwos : Grid :=
  ⟨⟨2, 2, 2, 2⟩, zeroRow, zeroRow, zeroRow⟩

/-- Concrete grid whose first row is `[2,2,0,0]` (all other cells 0): a
rightward move merges the two 2s yet preserves the total sum. -/
def gridPair : Grid :=
  ⟨⟨2, 2, 0, 0⟩, zeroRow, zeroRow, zeroRow⟩

/-- Concrete grid whose first row is `[2,2,4,0]` (all other cells 0), the
spec's worked scenario for `move(Right)`. -/
def gridScenario : Grid :=
  ⟨⟨2, 2, 4, 0⟩, zeroRow, zeroRow, zeroRow⟩

/-- Concrete grid whose first row is `[2,4,0,0]` (all other cells 0): a
rightward move only slides, merging nothing. -/
def gridSlide : Grid :=
  ⟨⟨2, 4, 0, 0⟩, zeroRow, zeroRow, zeroRow⟩

/-! ### Basic facts about the invariants -/

/-- An empty cell cannot carry a set `merged` flag. -/
theorem cellOk_zero_flag {r₀ : Row} {m : Bool} (h : cellOk r₀ m 0) : m = false := by
  cases m
  · rfl
  · exfalso
    simp only [cellOk, if_true] at h
    unfold dblMem at h
    omega

/-- A non-empty unmerged cell holds an original cell value. -/
theorem srcMem_of_cellOk {r₀ : Row} {v : Nat} (h : cellOk r₀ false v) (hv : v ≠ 0) :
    srcMem v r₀ := by
  simp only [cellOk, if_false, Bool.false_eq_true] at h
  exact h.resolve_left hv

/-- Doubling an original non-empty cell value lands in `dblMem`. -/
theorem dblMem_of_srcMem {r₀ : Row} {v : Nat} (h : srcMem v r₀) (hv : v ≠ 0) :
    dblMem (v * 2) r₀ := by
  unfold srcMem at h
  unfold dblMem
  omega

/-- The fresh state of a line satisfies the mid-run invariant. -/
theorem goodInit (r : Row) : Good r (initMState r) := by
  refine ⟨?_, ?_, ?_, ?_⟩ <;>
    simp [initMState, cellOk, srcMem]

/-! ### Behaviour of the rightward steps -/

/-- Full behavioural specification of the loop iteration at `col = 2` of
the rightward pass, on any state that can actually occur there: the step
is the identity or strictly increases the rightward potential while
raising `moved`; it preserves the cell sum, the mid-run invariant, cells
0 and 1, and flags 0,1,2; flag 3 is monotone; and if no merge has
touched cell 3 the step leaves cell 2 blocked. -/
theorem stepR2_spec (r₀ : Row) (s : MState)
    (hv : s.row.c2 ≠ 0) (hm2 : s.m2 = false) (hg : Good r₀ s) :
    (stepR2 s = s ∨ ((stepR2 s).moved = true ∧ rowWeightR s.row < rowWeightR (stepR2 s).row))
    ∧ rowSum (stepR2 s).row = rowSum s.row
    ∧ Good r₀ (stepR2 s)
    ∧ (stepR2 s).row.c0 = s.row.c0 ∧ (stepR2 s).row.c1 = s.row.c1
    ∧ (stepR2 s).m0 = s.m0 ∧ (stepR2 s).m1 = s.m1 ∧ (stepR2 s).m2 = s.m2
    ∧ (s.m3 = true → (stepR2 s).m3 = true)
    ∧ (s.m3 = false → (stepR2 s).m3 = false → settleAt2 (stepR2 s).row) := by
  obtain ⟨⟨a, b, c, d⟩, m0, m1, m2, m3, mv⟩ := s
  dsimp only at hv hm2 hg ⊢
  subst hm2
  obtain ⟨hg0, hg1, hg2, hg3⟩ := hg
  by_cases h1 : d = 0
  · subst h1
    have hm3 : m3 = false := cellOk_zero_flag hg3
    subst hm3
    have e : stepR2 ⟨⟨a, b, c, 0⟩, m0, m1, false, false, mv⟩
        = ⟨⟨a, b, 0, c⟩, m0, m1, false, false, true⟩ := by
      unfold stepR2
      dsimp only
      rw [if_pos rfl]
    rw [e]
    refine ⟨Or.inr ⟨rfl, ?_⟩, ?_, ⟨hg0, hg1, Or.inl rfl, hg2⟩, rfl, rfl, rfl, rfl, rfl,
        fun h => h, ?_⟩
    · unfold rowWeightR
      dsimp only
      omega
    · unfold rowSum
      dsimp only
      omega
    · intro _ _
      unfold settleAt2
      dsimp only
      intro h
      exact absurd rfl h
  · by_cases h2 : d = c ∧ m3 = false
    · obtain ⟨hdc, hm3⟩ := h2
      subst hm3
      have e : stepR2 ⟨⟨a, b, c, d⟩, m0, m1, false, false, mv⟩
          = ⟨⟨a, b, 0, d * 2⟩, m0, m1, false, true, true⟩ := by
        unfold stepR2
        dsimp only
        rw [if_neg h1, if_pos ⟨hdc, rfl⟩]
      rw [e]
      have hsrc : srcMem c r₀ := srcMem_of_cellOk hg2 hv
      have hdbl : dblMem (d * 2) r₀ := by
        rw [hdc]
        exact dblMem_of_srcMem hsrc hv
      refine ⟨Or.inr ⟨rfl, ?_⟩, ?_, ⟨hg0, hg1, Or.inl rfl, ?_⟩, rfl, rfl, rfl, rfl, rfl,
          fun _ => rfl, ?_⟩
      · unfold rowWeightR
        dsimp only
        omega
      · unfold rowSum
        dsimp only
        omega
      · simp only [cellOk, if_true]
        exact hdbl
      · intro _ h
        simp at h
    · have e : stepR2 ⟨⟨a, b, c, d⟩, m0, m1, false, m3, mv⟩
          = ⟨⟨a, b, c, d⟩, m0, m1, false, m3, mv⟩ := by
        unfold stepR2
        dsimp only
        rw [if_neg h1, if_neg h2]
      rw [e]
      refine ⟨Or.inl rfl, rfl, ⟨hg0, hg1, hg2, hg3⟩, rfl, rfl, rfl, rfl, rfl,
          fun h => h, ?_⟩
      intro hm3 _
      unfold settleAt2
      dsimp only
      intro _
      exact ⟨h1, fun hdc => h2 ⟨hdc, hm3⟩⟩

/-- Full behavioural specification of the loop iteration at `col = 1` of
the rightward pass (which may continue into the iteration at `col = 2`),
analogous to `stepR2_spec`. -/
theorem stepR1_spec (r₀ : Row) (s : MState)
    (hv : s.row.c1 ≠ 0) (hm1 : s.m1 = false) (hg : Good r₀ s) :
    (stepR1 s = s ∨ ((stepR1 s).moved = true ∧ rowWeightR s.row < rowWeightR (stepR1 s).row))
    ∧ rowSum (stepR1 s).row = rowSum s.row
    ∧ Good r₀ (stepR1 s)
    ∧ (stepR1 s).row.c0 = s.row.c0
    ∧ (stepR1 s).m0 = s.m0 ∧ (stepR1 s).m1 = s.m1
    ∧ (s.m2 = true → (stepR1 s).m2 = true) ∧ (s.m3 = true → (stepR1 s).m3 = true)
    ∧ (s.m2 = false → s.m3 = false → settleAt2 s.row →
        (stepR1 s).m2 = false → (stepR1 s).m3 = false →
        settleAt1 (stepR1 s).row ∧ settleAt2 (stepR1 s).row) := by
  obtain ⟨⟨a, b, c, d⟩, m0, m1, m2, m3, mv⟩ := s
  dsimp only at hv hm1 hg ⊢
  subst hm1
  obtain ⟨hg0, hg1, hg2, hg3⟩ := hg
  by_cases h1 : c = 0
  · subst h1
    have hm2 : m2 = false := cellOk_zero_flag hg2
    subst hm2
    have e : stepR1 ⟨⟨a, b, 0, d⟩, m0, false, false, m3, mv⟩
        = stepR2 ⟨⟨a, 0, b, d⟩, m0, false, false, m3, true⟩ := by
      unfold stepR1
      dsimp only
      rw [if_pos rfl]
    rw [e]
    obtain ⟨hA, hsum, hgood, he0, he1, hf0, hf1, hf2, hmono3, hsettle⟩ :=
      stepR2_spec r₀ ⟨⟨a, 0, b, d⟩, m0, false, false, m3, true⟩ hv rfl
        ⟨hg0, Or.inl rfl, hg1, hg3⟩
    have hw : rowWeightR (⟨a, b, 0, d⟩ : Row) < rowWeightR (⟨a, 0, b, d⟩ : Row) := by
      unfold rowWeightR
      dsimp only
      omega
    refine ⟨?_, ?_, hgood, he0, hf0, hf1, ?_, hmono3, ?_⟩
    · rcases hA with hid | ⟨hmv, hw2⟩
      · rw [hid]
        exact Or.inr ⟨rfl, hw⟩
      · exact Or.inr ⟨hmv, lt_trans hw hw2⟩
    · rw [hsum]
      unfold rowSum
      dsimp only
      omega
    · intro h
      exact absurd h (by simp)
    · intro _ hm3 _ _ hp3
      constructor
      · unfold settleAt1
        intro h
        exact absurd he1 h
      · exact hsettle hm3 hp3
  · by_cases h2 : c = b ∧ m2 = false
    · obtain ⟨hcb, hm2⟩ := h2
      subst hm2
      have e : stepR1 ⟨⟨a, b, c, d⟩, m0, false, false, m3, mv⟩
          = ⟨⟨a, 0, c * 2, d⟩, m0, false, true, m3, true⟩ := by
        unfold stepR1
        dsimp only
        rw [if_neg h1, if_pos ⟨hcb, rfl⟩]
      rw [e]
      have hsrc : srcMem c r₀ := srcMem_of_cellOk hg2 h1
      have hdbl : dblMem (c * 2) r₀ := dblMem_of_srcMem hsrc h1
      refine ⟨Or.inr ⟨rfl, ?_⟩, ?_, ⟨hg0, Or.inl rfl, ?_, hg3⟩, rfl, rfl, rfl,
          fun _ => rfl, fun h => h, ?_⟩
      · unfold rowWeightR
        dsimp only
        omega
      · unfold rowSum
        dsimp only
        omega
      · simp only [cellOk, if_true]
        exact hdbl
      · intro _ _ _ hp2 _
        simp at hp2
    · have e : stepR1 ⟨⟨a, b, c, d⟩, m0, false, m2, m3, mv⟩
          = ⟨⟨a, b, c, d⟩, m0, false, m2, m3, mv⟩ := by
        unfold stepR1
        dsimp only
        rw [if_neg h1, if_neg h2]
      rw [e]
      refine ⟨Or.inl rfl, rfl, ⟨hg0, hg1, hg2, hg3⟩, rfl, rfl, rfl, fun h => h,
          fun h => h, ?_⟩
      intro hm2 _ hs2 _ _
      refine ⟨?_, hs2⟩
      unfold settleAt1
      dsimp only
      intro _
      exact ⟨h1, fun hcb => h2 ⟨hcb, hm2⟩⟩

/-- Full behavioural specification of the loop iteration at `col = 0` of
the rightward pass (which may continue into the iterations at `col = 1`
and `col = 2`), analogous to `stepR2_spec`. -/
theorem stepR0_spec (r₀ : Row) (s : MState)
    (hv : s.row.c0 ≠ 0) (hm0 : s.m0 = false) (hg : Good r₀ s) :
    (stepR0 s = s ∨ ((stepR0 s).moved = true ∧ rowWeightR s.row < rowWeightR (stepR0 s).row))
    ∧ rowSum (stepR0 s).row = rowSum s.row
    ∧ Good r₀ (stepR0 s)
    ∧ (stepR0 s).m0 = s.m0
    ∧ (s.m1 = true → (stepR0 s).m1 = true) ∧ (s.m2 = true → (stepR0 s).m2 = true)
    ∧ (s.m3 = true → (stepR0 s).m3 = true)
    ∧ (s.m1 = false → s.m2 = false → s.m3 = false → settleAt1 s.row → settleAt2 s.row →
        (stepR0 s).m1 = false → (stepR0 s).m2 = false → (stepR0 s).m3 = false →
        settleAt0 (stepR0 s).row ∧ settleAt1 (stepR0 s).row ∧ settleAt2 (stepR0 s).row) := by
  obtain ⟨⟨a, b, c, d⟩, m0, m1, m2, m3, mv⟩ := s
  dsimp only at hv hm0 hg ⊢
  subst hm0
  obtain ⟨hg0, hg1, hg2, hg3⟩ := hg
  by_cases h1 : b = 0
  · subst h1
    have hm1 : m1 = false := cellOk_zero_flag hg1
    subst hm1
    have e : stepR0 ⟨⟨a, 0, c, d⟩, false, false, m2, m3, mv⟩
        = stepR1 ⟨⟨0, a, c, d⟩, false, false, m2, m3, true⟩ := by
      unfold stepR0
      dsimp only
      rw [if_pos rfl]
    rw [e]
    obtain ⟨hA, hsum, hgood, he0, hf0, hf1, hmono2, hmono3, hsettle⟩ :=
      stepR1_spec r₀ ⟨⟨0, a, c, d⟩, false, false, m2, m3, true⟩ hv rfl
        ⟨Or.inl rfl, hg0, hg2, hg3⟩
    have hw : rowWeightR (⟨a, 0, c, d⟩ : Row) < rowWeightR (⟨0, a, c, d⟩ : Row) := by
      unfold rowWeightR
      dsimp only
      omega
    refine ⟨?_, ?_, hgood, hf0, ?_, hmono2, hmono3, ?_⟩
    · rcases hA with hid | ⟨hmv, hw2⟩
      · rw [hid]
        exact Or.inr ⟨rfl, hw⟩
      · exact Or.inr ⟨hmv, lt_trans hw hw2⟩
    · rw [hsum]
      unfold rowSum
      dsimp only
      omega
    · intro h
      exact absurd h (by simp)
    · intro _ hm2 hm3 _ hs2 _ hp2 hp3
      obtain ⟨hS1, hS2⟩ := hsettle hm2 hm3 hs2 hp2 hp3
      refine ⟨?_, hS1, hS2⟩
      unfold settleAt0
      intro h
      exact absurd he0 h
  · by_cases h2 : b = a ∧ m1 = false
    · obtain ⟨hba, hm1⟩ := h2
      subst hm1
      have e : stepR0 ⟨⟨a, b, c, d⟩, false, false, m2, m3, mv⟩
          = ⟨⟨0, b * 2, c, d⟩, false, true, m2, m3, true⟩ := by
        unfold stepR0
        dsimp only
        rw [if_neg h1, if_pos ⟨hba, rfl⟩]
      rw [e]
      have hsrc : srcMem b r₀ := srcMem_of_cellOk hg1 h1
      have hdbl : dblMem (b * 2) r₀ := dblMem_of_srcMem hsrc h1
      refine ⟨Or.inr ⟨rfl, ?_⟩, ?_, ⟨Or.inl rfl, ?_, hg2, hg3⟩, rfl, fun _ => rfl,
          fun h => h, fun h => h, ?_⟩
      · unfold rowWeightR
        dsimp only
        omega
      · unfold rowSum
        dsimp only
        omega
      · simp only [cellOk, if_true]
        exact hdbl
      · intro _ _ _ _ _ hp1 _ _
        simp at hp1
    · have e : stepR0 ⟨⟨a, b, c, d⟩, false, m1, m2, m3, mv⟩
          = ⟨⟨a, b, c, d⟩, false, m1, m2, m3, mv⟩ := by
        unfold stepR0
        dsimp only
        rw [if_neg h1, if_neg h2]
      rw [e]
      refine ⟨Or.inl rfl, rfl, ⟨hg0, hg1, hg2, hg3⟩, rfl, fun h => h, fun h => h,
          fun h => h, ?_⟩
      intro hm1 _ _ hs1 hs2 _ _ _
      refine ⟨?_, hs1, hs2⟩
      unfold settleAt0
      dsimp only
      intro _
      exact ⟨h1, fun hba => h2 ⟨hba, hm1⟩⟩

/-- A flag that is still clear after a monotone step was clear before it. -/
theorem mono_false {x y : Bool} (mono : x = true → y = true) (hy : y = false) : x = false := by
  cases x
  · rfl
  · have h := mono rfl
    rw [h] at hy
    exact hy

/-- `stepR2_spec` for the guarded form in which the step occurs inside
`procRight` (an empty source cell is skipped). -/
theorem gstepR2_spec (r₀ : Row) (s t : MState)
    (ht : t = if s.row.c2 ≠ 0 then stepR2 s else s)
    (hm2 : s.m2 = false) (hg : Good r₀ s) :
    (t = s ∨ (t.moved = true ∧ rowWeightR s.row < rowWeightR t.row))
    ∧ rowSum t.row = rowSum s.row
    ∧ Good r₀ t
    ∧ t.row.c0 = s.row.c0 ∧ t.row.c1 = s.row.c1
    ∧ t.m0 = s.m0 ∧ t.m1 = s.m1 ∧ t.m2 = s.m2
    ∧ (s.m3 = true → t.m3 = true)
    ∧ (s.m3 = false → t.m3 = false → settleAt2 t.row) := by
  subst ht
  by_cases h : s.row.c2 ≠ 0
  · rw [if_pos h]
    exact stepR2_spec r₀ s h hm2 hg
  · rw [if_neg h]
    refine ⟨Or.inl rfl, rfl, hg, rfl, rfl, rfl, rfl, rfl, fun h => h, ?_⟩
    intro _ _
    unfold settleAt2
    intro hc2
    exact absurd (not_not.mp h) hc2

/-- `stepR1_spec` for the guarded form in which the step occurs inside
`procRight`. -/
theorem gstepR1_spec (r₀ : Row) (s t : MState)
    (ht : t = if s.row.c1 ≠ 0 then stepR1 s else s)
    (hm1 : s.m1 = false) (hg : Good r₀ s) :
    (t = s ∨ (t.moved = true ∧ rowWeightR s.row < rowWeightR t.row))
    ∧ rowSum t.row = rowSum s.row
    ∧ Good r₀ t
    ∧ t.row.c0 = s.row.c0
    ∧ t.m0 = s.m0 ∧ t.m1 = s.m1
    ∧ (s.m2 = true → t.m2 = true) ∧ (s.m3 = true → t.m3 = true)
    ∧ (s.m2 = false → s.m3 = false → settleAt2 s.row →
        t.m2 = false → t.m3 = false → settleAt1 t.row ∧ settleAt2 t.row) := by
  subst ht
  by_cases h : s.row.c1 ≠ 0
  · rw [if_pos h]
    exact stepR1_spec r₀ s h hm1 hg
  · rw [if_neg h]
    refine ⟨Or.inl rfl, rfl, hg, rfl, rfl, rfl, fun h => h, fun h => h, ?_⟩
    intro _ _ hs2 _ _
    refine ⟨?_, hs2⟩
    unfold settleAt1
    intro hc1
    exact absurd (not_not.mp h) hc1

/-- `stepR0_spec` for the guarded form in which the step occurs inside
`procRight`. -/
theorem gstepR0_spec (r₀ : Row) (s t : MState)
    (ht : t = if s.row.c0 ≠ 0 then stepR0 s else s)
    (hm0 : s.m0 = false) (hg : Good r₀ s) :
    (t = s ∨ (t.moved = true ∧ rowWeightR s.row < rowWeightR t.row))
    ∧ rowSum t.row = rowSum s.row
    ∧ Good r₀ t
    ∧ t.m0 = s.m0
    ∧ (s.m1 = true → t.m1 = true) ∧ (s.m2 = true → t.m2 = true)
    ∧ (s.m3 = true → t.m3 = true)
    ∧ (s.m1 = false → s.m2 = false → s.m3 = false → settleAt1 s.row → settleAt2 s.row →
        t.m1 = false → t.m2 = false → t.m3 = false →
        settleAt0 t.row ∧ settleAt1 t.row ∧ settleAt2 t.row) := by
  subst ht
  by_cases h : s.row.c0 ≠ 0
  · rw [if_pos h]
    exact stepR0_spec r₀ s h hm0 hg
  · rw [if_neg h]
    refine ⟨Or.inl rfl, rfl, hg, rfl, fun h => h, fun h => h, fun h => h, ?_⟩
    intro _ _ _ hs1 hs2 _ _ _
    refine ⟨?_, hs1, hs2⟩
    unfold settleAt0
    intro hc0
    exact absurd (not_not.mp h) hc0

/-- `procRight` is the composition of the three guarded stage steps. -/
theorem procRight_decomp (r : Row) : ∃ s1 s2,
    s1 = (if (initMState r).row.c2 ≠ 0 then stepR2 (initMState r) else initMState r)
    ∧ s2 = (if s1.row.c1 ≠ 0 then stepR1 s1 else s1)
    ∧ procRight r = (if s2.row.c0 ≠ 0 then stepR0 s2 else s2) :=
  ⟨_, _, rfl, rfl, rfl⟩

/-- Global specification of the rightward pass on one row: it is a no-op
(with `moved = false`, all flags clear) or reports `moved = true` and
strictly increases the rightward potential; it preserves the cell sum;
every cell of the result is empty, an original tile value, or (when its
`merged` flag is set) exactly double an original tile value; and a run
that performed no merge leaves a settled row. -/
theorem procRight_spec (r : Row) :
    (procRight r = initMState r
      ∨ ((procRight r).moved = true ∧ rowWeightR r < rowWeightR (procRight r).row))
    ∧ rowSum (procRight r).row = rowSum r
    ∧ Good r (procRight r)
    ∧ (mergedAny (procRight r) = false → settledR (procRight r).row) := by
  obtain ⟨s1, s2, e1, e2, e3⟩ := procRight_decomp r
  rw [e3]
  obtain ⟨A1, sum1, good1, ec0a, ec1a, em0a, em1a, em2a, mono3a, settle1⟩ :=
    gstepR2_spec r (initMState r) s1 e1 rfl (goodInit r)
  have hm1s1 : s1.m1 = false := em1a
  obtain ⟨A2, sum2, good2, ec0b, em0b, em1b, mono2b, mono3b, settle2⟩ :=
    gstepR1_spec r s1 s2 e2 hm1s1 good1
  have hm0s2 : s2.m0 = false := em0b.trans em0a
  obtain ⟨A3, sum3, good3, em0c, mono1c, mono2c, mono3c, settle3⟩ :=
    gstepR0_spec r s2 _ rfl hm0s2 good2
  refine ⟨?_, ?_, good3, ?_⟩
  · rcases A1 with eA1 | ⟨mv1, w1⟩
    · rcases A2 with eA2 | ⟨mv2, w2⟩
      · have hw21 : rowWeightR s2.row = rowWeightR r := by
          rw [eA2, eA1]
          rfl
        rcases A3 with eA3 | ⟨mv3, w3⟩
        · rw [eA3, eA2, eA1]
          exact Or.inl rfl
        · exact Or.inr ⟨mv3, lt_of_le_of_lt (le_of_eq hw21.symm) w3⟩
      · have hw10 : rowWeightR s1.row = rowWeightR r := by
          rw [eA1]
          rfl
        rcases A3 with eA3 | ⟨mv3, w3⟩
        · rw [eA3]
          exact Or.inr ⟨mv2, lt_of_le_of_lt (le_of_eq hw10.symm) w2⟩
        · exact Or.inr
            ⟨mv3, lt_trans (lt_of_le_of_lt (le_of_eq hw10.symm) w2) w3⟩
    · rcases A2 with eA2 | ⟨mv2, w2⟩
      · have hw21 : rowWeightR s2.row = rowWeightR s1.row := by
          rw [eA2]
        rcases A3 with eA3 | ⟨mv3, w3⟩
        · rw [eA3, eA2]
          exact Or.inr ⟨mv1, w1⟩
        · exact Or.inr
            ⟨mv3, lt_trans (lt_of_lt_of_le w1 (le_of_eq hw21.symm)) w3⟩
      · rcases A3 with eA3 | ⟨mv3, w3⟩
        · rw [eA3]
          exact Or.inr ⟨mv2, lt_trans w1 w2⟩
        · exact Or.inr ⟨mv3, lt_trans (lt_trans w1 w2) w3⟩
  · rw [sum3, sum2, sum1]
    rfl
  · intro hma
    simp only [mergedAny, Bool.or_eq_false_iff] at hma
    obtain ⟨⟨⟨_, hq1⟩, hq2⟩, hq3⟩ := hma
    have hm3s2 : s2.m3 = false := mono_false mono3c hq3
    have hm2s2 : s2.m2 = false := mono_false mono2c hq2
    have hm1s2 : s2.m1 = false := em1b.trans hm1s1
    have hm3s1 : s1.m3 = false := mono_false mono3b hm3s2
    have hm2s1 : s1.m2 = false := em2a
    have hset2s1 : settleAt2 s1.row := settle1 rfl hm3s1
    obtain ⟨hset1s2, hset2s2⟩ := settle2 hm2s1 hm3s1 hset2s1 hm2s2 hm3s2
    obtain ⟨h0, h1, h2⟩ := settle3 hm1s2 hm2s2 hm3s2 hset1s2 hset2s2 hq1 hq2 hq3
    exact ⟨h2, h1, h0⟩

/-! ### Behaviour of the leftward steps (mirror images of the rightward ones) -/

/-- Mirror of `stepR2_spec`: the loop iteration at `col = 1` of the
leftward pass. -/
theorem stepL1_spec (r₀ : Row) (s : MState)
    (hv : s.row.c1 ≠ 0) (hm1 : s.m1 = false) (hg : Good r₀ s) :
    (stepL1 s = s ∨ ((stepL1 s).moved = true ∧ rowWeightL s.row < rowWeightL (stepL1 s).row))
    ∧ rowSum (stepL1 s).row = rowSum s.row
    ∧ Good r₀ (stepL1 s)
    ∧ (stepL1 s).row.c3 = s.row.c3 ∧ (stepL1 s).row.c2 = s.row.c2
    ∧ (stepL1 s).m3 = s.m3 ∧ (stepL1 s).m2 = s.m2 ∧ (stepL1 s).m1 = s.m1
    ∧ (s.m0 = true → (stepL1 s).m0 = true)
    ∧ (s.m0 = false → (stepL1 s).m0 = false → settleAt1L (stepL1 s).row) := by
  obtain ⟨⟨a, b, c, d⟩, m0, m1, m2, m3, mv⟩ := s
  dsimp only at hv hm1 hg ⊢
  subst hm1
  obtain ⟨hg0, hg1, hg2, hg3⟩ := hg
  by_cases h1 : a = 0
  · subst h1
    have hm0 : m0 = false := cellOk_zero_flag hg0
    subst hm0
    have e : stepL1 ⟨⟨0, b, c, d⟩, false, false, m2, m3, mv⟩
        = ⟨⟨b, 0, c, d⟩, false, false, m2, m3, true⟩ := by
      unfold stepL1
      dsimp only
      rw [if_pos rfl]
    rw [e]
    refine ⟨Or.inr ⟨rfl, ?_⟩, ?_, ⟨hg1, Or.inl rfl, hg2, hg3⟩, rfl, rfl, rfl, rfl, rfl,
        fun h => h, ?_⟩
    · unfold rowWeightL
      dsimp only
      omega
    · unfold rowSum
      dsimp only
      omega
    · intro _ _
      unfold settleAt1L
      dsimp only
      intro h
      exact absurd rfl h
  · by_cases h2 : a = b ∧ m0 = false
    · obtain ⟨hab, hm0⟩ := h2
      subst hm0
      have e : stepL1 ⟨⟨a, b, c, d⟩, false, false, m2, m3, mv⟩
          = ⟨⟨a * 2, 0, c, d⟩, true, false, m2, m3, true⟩ := by
        unfold stepL1
        dsimp only
        rw [if_neg h1, if_pos ⟨hab, rfl⟩]
      rw [e]
      have hsrc : srcMem a r₀ := srcMem_of_cellOk hg0 h1
      have hdbl : dblMem (a * 2) r₀ := dblMem_of_srcMem hsrc h1
      refine ⟨Or.inr ⟨rfl, ?_⟩, ?_, ⟨?_, Or.inl rfl, hg2, hg3⟩, rfl, rfl, rfl, rfl, rfl,
          fun _ => rfl, ?_⟩
      · unfold rowWeightL
        dsimp only
        omega
      · unfold rowSum
        dsimp only
        omega
      · simp only [cellOk, if_true]
        exact hdbl
      · intro _ h
        simp at h
    · have e : stepL1 ⟨⟨a, b, c, d⟩, m0, false, m2, m3, mv⟩
          = ⟨⟨a, b, c, d⟩, m0, false, m2, m3, mv⟩ := by
        unfold stepL1
        dsimp only
        rw [if_neg h1, if_neg h2]
      rw [e]
      refine ⟨Or.inl rfl, rfl, ⟨hg0, hg1, hg2, hg3⟩, rfl, rfl, rfl, rfl, rfl,
          fun h => h, ?_⟩
      intro hm0 _
      unfold settleAt1L
      dsimp only
      intro _
      exact ⟨h1, fun hab => h2 ⟨hab, hm0⟩⟩

/-- Mirror of `stepR1_spec`: the loop iteration at `col = 2` of the
leftward pass. -/
theorem stepL2_spec (r₀ : Row) (s : MState)
    (hv : s.row.c2 ≠ 0) (hm2 : s.m2 = false) (hg : Good r₀ s) :
    (stepL2 s = s ∨ ((stepL2 s).moved = true ∧ rowWeightL s.row < rowWeightL (stepL2 s).row))
    ∧ rowSum (stepL2 s).row = rowSum s.row
    ∧ Good r₀ (stepL2 s)
    ∧ (stepL2 s).row.c3 = s.row.c3
    ∧ (stepL2 s).m3 = s.m3 ∧ (stepL2 s).m2 = s.m2
    ∧ (s.m1 = true → (stepL2 s).m1 = true) ∧ (s.m0 = true → (stepL2 s).m0 = true)
    ∧ (s.m1 = false → s.m0 = false → settleAt1L s.row →
        (stepL2 s).m1 = false → (stepL2 s).m0 = false →
        settleAt2L (stepL2 s).row ∧ settleAt1L (stepL2 s).row) := by
  obtain ⟨⟨a, b, c, d⟩, m0, m1, m2, m3, mv⟩ := s
  dsimp only at hv hm2 hg ⊢
  subst hm2
  obtain ⟨hg0, hg1, hg2, hg3⟩ := hg
  by_cases h1 : b = 0
  · subst h1
    have hm1 : m1 = false := cellOk_zero_flag hg1
    subst hm1
    have e : stepL2 ⟨⟨a, 0, c, d⟩, m0, false, false, m3, mv⟩
        = stepL1 ⟨⟨a, c, 0, d⟩, m0, false, false, m3, true⟩ := by
      unfold stepL2
      dsimp only
      rw [if_pos rfl]
    rw [e]
    obtain ⟨hA, hsum, hgood, he3, he2, hf3, hf2, hf1, hmono0, hsettle⟩ :=
      stepL1_spec r₀ ⟨⟨a, c, 0, d⟩, m0, false, false, m3, true⟩ hv rfl
        ⟨hg0, hg2, Or.inl rfl, hg3⟩
    have hw : rowWeightL (⟨a, 0, c, d⟩ : Row) < rowWeightL (⟨a, c, 0, d⟩ : Row) := by
      unfold rowWeightL
      dsimp only
      omega
    refine ⟨?_, ?_, hgood, he3, hf3, ?_, ?_, hmono0, ?_⟩
    · rcases hA with hid | ⟨hmv, hw2⟩
      · rw [hid]
        exact Or.inr ⟨rfl, hw⟩
      · exact Or.inr ⟨hmv, lt_trans hw hw2⟩
    · rw [hsum]
      unfold rowSum
      dsimp only
      omega
    · exact hf2
    · intro h
      exact absurd h (by simp)
    · intro _ hm0 _ _ hp0
      constructor
      · unfold settleAt2L
        intro h
        exact absurd he2 h
      · exact hsettle hm0 hp0
  · by_cases h2 : b = c ∧ m1 = false
    · obtain ⟨hbc, hm1⟩ := h2
      subst hm1
      have e : stepL2 ⟨⟨a, b, c, d⟩, m0, false, false, m3, mv⟩
          = ⟨⟨a, b * 2, 0, d⟩, m0, true, false, m3, true⟩ := by
        unfold stepL2
        dsimp only
        rw [if_neg h1, if_pos ⟨hbc, rfl⟩]
      rw [e]
      have hsrc : srcMem b r₀ := srcMem_of_cellOk hg1 h1
      have hdbl : dblMem (b * 2) r₀ := dblMem_of_srcMem hsrc h1
      refine ⟨Or.inr ⟨rfl, ?_⟩, ?_, ⟨hg0, ?_, Or.inl rfl, hg3⟩, rfl, rfl, rfl,
          fun _ => rfl, fun h => h, ?_⟩
      · unfold rowWeightL
        dsimp only
        omega
      · unfold rowSum
        dsimp only
        omega
      · simp only [cellOk, if_true]
        exact hdbl
      · intro _ _ _ hp1 _
        simp at hp1
    · have e : stepL2 ⟨⟨a, b, c, d⟩, m0, m1, false, m3, mv⟩
          = ⟨⟨a, b, c, d⟩, m0, m1, false, m3, mv⟩ := by
        unfold stepL2
        dsimp only
        rw [if_neg h1, if_neg h2]
      rw [e]
      refine ⟨Or.inl rfl, rfl, ⟨hg0, hg1, hg2, hg3⟩, rfl, rfl, rfl, fun h => h,
          fun h => h, ?_⟩
      intro hm1 _ hs1 _ _
      refine ⟨?_, hs1⟩
      unfold settleAt2L
      dsimp only
      intro _
      exact ⟨h1, fun hbc => h2 ⟨hbc, hm1⟩⟩

/-- Mirror of `stepR0_spec`: the loop iteration at `col = 3` of the
leftward pass. -/
theorem stepL3_spec (r₀ : Row) (s : MState)
    (hv : s.row.c3 ≠ 0) (hm3 : s.m3 = false) (hg : Good r₀ s) :
    (stepL3 s = s ∨ ((stepL3 s).moved = true ∧ rowWeightL s.row < rowWeightL (stepL3 s).row))
    ∧ rowSum (stepL3 s).row = rowSum s.row
    ∧ Good r₀ (stepL3 s)
    ∧ (stepL3 s).m3 = s.m3
    ∧ (s.m2 = true → (stepL3 s).m2 = true) ∧ (s.m1 = true → (stepL3 s).m1 = true)
    ∧ (s.m0 = true → (stepL3 s).m0 = true)
    ∧ (s.m2 = false → s.m1 = false → s.m0 = false → settleAt2L s.row → settleAt1L s.row →
        (stepL3 s).m2 = false → (stepL3 s).m1 = false → (stepL3 s).m0 = false →
        settleAt3L (stepL3 s).row ∧ settleAt2L (stepL3 s).row ∧ settleAt1L (stepL3 s).row) := by
  obtain ⟨⟨a, b, c, d⟩, m0, m1, m2, m3, mv⟩ := s
  dsimp only at hv hm3 hg ⊢
  subst hm3
  obtain ⟨hg0, hg1, hg2, hg3⟩ := hg
  by_cases h1 : c = 0
  · subst h1
    have hm2 : m2 = false := cellOk_zero_flag hg2
    subst hm2
    have e : stepL3 ⟨⟨a, b, 0, d⟩, m0, m1, false, false, mv⟩
        = stepL2 ⟨⟨a, b, d, 0⟩, m0, m1, false, false, true⟩ := by
      unfold stepL3
      dsimp only
      rw [if_pos rfl]
    rw [e]
    obtain ⟨hA, hsum, hgood, he3, hf3, hf2, hmono1, hmono0, hsettle⟩ :=
      stepL2_spec r₀ ⟨⟨a, b, d, 0⟩, m0, m1, false, false, true⟩ hv rfl
        ⟨hg0, hg1, hg3, Or.inl rfl⟩
    have hw : rowWeightL (⟨a, b, 0, d⟩ : Row) < rowWeightL (⟨a, b, d, 0⟩ : Row) := by
      unfold rowWeightL
      dsimp only
      omega
    refine ⟨?_, ?_, hgood, hf3, ?_, hmono1, hmono0, ?_⟩
    · rcases hA with hid | ⟨hmv, hw2⟩
      · rw [hid]
        exact Or.inr ⟨rfl, hw⟩
      · exact Or.inr ⟨hmv, lt_trans hw hw2⟩
    · rw [hsum]
      unfold rowSum
      dsimp only
      omega
    · intro h
      exact absurd h (by simp)
    · intro hm2 hm1 hm0 _ hs1 _ hp1 hp0
      obtain ⟨hS2, hS1⟩ := hsettle hm1 hm0 hs1 hp1 hp0
      refine ⟨?_, hS2, hS1⟩
      unfold settleAt3L
      intro h
      exact absurd he3 h
  · by_cases h2 : c = d ∧ m2 = false
    · obtain ⟨hcd, hm2⟩ := h2
      subst hm2
      have e : stepL3 ⟨⟨a, b, c, d⟩, m0, m1, false, false, mv⟩
          = ⟨⟨a, b, c * 2, 0⟩, m0, m1, true, false, true⟩ := by
        unfold stepL3
        dsimp only
        rw [if_neg h1, if_pos ⟨hcd, rfl⟩]
      rw [e]
      have hsrc : srcMem c r₀ := srcMem_of_cellOk hg2 h1
      have hdbl : dblMem (c * 2) r₀ := dblMem_of_srcMem hsrc h1
      refine ⟨Or.inr ⟨rfl, ?_⟩, ?_, ⟨hg0, hg1, ?_, Or.inl rfl⟩, rfl, fun _ => rfl,
          fun h => h, fun h => h, ?_⟩
      · unfold rowWeightL
        dsimp only
        omega
      · unfold rowSum
        dsimp only
        omega
      · simp only [cellOk, if_true]
        exact hdbl
      · intro _ _ _ _ _ hp2 _ _
        simp at hp2
    · have e : stepL3 ⟨⟨a, b, c, d⟩, m0, m1, m2, false, mv⟩
          = ⟨⟨a, b, c, d⟩, m0, m1, m2, false, mv⟩ := by
        unfold stepL3
        dsimp only
        rw [if_neg h1, if_neg h2]
      rw [e]
      refine ⟨Or.inl rfl, rfl, ⟨hg0, hg1, hg2, hg3⟩, rfl, fun h => h, fun h => h,
          fun h => h, ?_⟩
      intro hm2 _ _ hs2 hs1 _ _ _
      refine ⟨?_, hs2, hs1⟩
      unfold settleAt3L
      dsimp only
      intro _
      exact ⟨h1, fun hcd => h2 ⟨hcd, hm2⟩⟩

/-- `stepL1_spec` for the guarded form in which the step occurs inside
`procLeft`. -/
theorem gstepL1_spec (r₀ : Row) (s t : MState)
    (ht : t = if s.row.c1 ≠ 0 then stepL1 s else s)
    (hm1 : s.m1 = false) (hg : Good r₀ s) :
    (t = s ∨ (t.moved = true ∧ rowWeightL s.row < rowWeightL t.row))
    ∧ rowSum t.row = rowSum s.row
    ∧ Good r₀ t
    ∧ t.row.c3 = s.row.c3 ∧ t.row.c2 = s.row.c2
    ∧ t.m3 = s.m3 ∧ t.m2 = s.m2 ∧ t.m1 = s.m1
    ∧ (s.m0 = true → t.m0 = true)
    ∧ (s.m0 = false → t.m0 = false → settleAt1L t.row) := by
  subst ht
  by_cases h : s.row.c1 ≠ 0
  · rw [if_pos h]
    exact stepL1_spec r₀ s h hm1 hg
  · rw [if_neg h]
    refine ⟨Or.inl rfl, rfl, hg, rfl, rfl, rfl, rfl, rfl, fun h => h, ?_⟩
    intro _ _
    unfold settleAt1L
    intro hc1
    exact absurd (not_not.mp h) hc1

/-- `stepL2_spec` for the guarded form in which the step occurs inside
`procLeft`. -/
theorem gstepL2_spec (r₀ : Row) (s t : MState)
    (ht : t = if s.row.c2 ≠ 0 then stepL2 s else s)
    (hm2 : s.m2 = false) (hg : Good r₀ s) :
    (t = s ∨ (t.moved = true ∧ rowWeightL s.row < rowWeightL t.row))
    ∧ rowSum t.row = rowSum s.row
    ∧ Good r₀ t
    ∧ t.row.c3 = s.row.c3
    ∧ t.m3 = s.m3 ∧ t.m2 = s.m2
    ∧ (s.m1 = true → t.m1 = true) ∧ (s.m0 = true → t.m0 = true)
    ∧ (s.m1 = false → s.m0 = false → settleAt1L s.row →
        t.m1 = false → t.m0 = false → settleAt2L t.row ∧ settleAt1L t.row) := by
  subst ht
  by_cases h : s.row.c2 ≠ 0
  · rw [if_pos h]
    exact stepL2_spec r₀ s h hm2 hg
  · rw [if_neg h]
    refine ⟨Or.inl rfl, rfl, hg, rfl, rfl, rfl, fun h => h, fun h => h, ?_⟩
    intro _ _ hs1 _ _
    refine ⟨?_, hs1⟩
    unfold settleAt2L
    intro hc2
    exact absurd (not_not.mp h) hc2

/-- `stepL3_spec` for the guarded form in which the step occurs inside
`procLeft`. -/
theorem gstepL3_spec (r₀ : Row) (s t : MState)
    (ht : t = if s.row.c3 ≠ 0 then stepL3 s else s)
    (hm3 : s.m3 = false) (hg : Good r₀ s) :
    (t = s ∨ (t.moved = true ∧ rowWeightL s.row < rowWeightL t.row))
    ∧ rowSum t.row = rowSum s.row
    ∧ Good r₀ t
    ∧ t.m3 = s.m3
    ∧ (s.m2 = true → t.m2 = true) ∧ (s.m1 = true → t.m1 = true)
    ∧ (s.m0 = true → t.m0 = true)
    ∧ (s.m2 = false → s.m1 = false → s.m0 = false → settleAt2L s.row → settleAt1L s.row →
        t.m2 = false → t.m1 = false → t.m0 = false →
        settleAt3L t.row ∧ settleAt2L t.row ∧ settleAt1L t.row) := by
  subst ht
  by_cases h : s.row.c3 ≠ 0
  · rw [if_pos h]
    exact stepL3_spec r₀ s h hm3 hg
  · rw [if_neg h]
    refine ⟨Or.inl rfl, rfl, hg, rfl, fun h => h, fun h => h, fun h => h, ?_⟩
    intro _ _ _ hs2 hs1 _ _ _
    refine ⟨?_, hs2, hs1⟩
    unfold settleAt3L
    intro hc3
    exact absurd (not_not.mp h) hc3

/-- `procLeft` is the composition of the three guarded stage steps. -/
theorem procLeft_decomp (r : Row) : ∃ s1 s2,
    s1 = (if (initMState r).row.c1 ≠ 0 then stepL1 (initMState r) else initMState r)
    ∧ s2 = (if s1.row.c2 ≠ 0 then stepL2 s1 else s1)
    ∧ procLeft r = (if s2.row.c3 ≠ 0 then stepL3 s2 else s2) :=
  ⟨_, _, rfl, rfl, rfl⟩

/-- Global specification of the leftward pass on one row, mirror of
`procRight_spec`. -/
theorem procLeft_spec (r : Row) :
    (procLeft r = initMState r
      ∨ ((procLeft r).moved = true ∧ rowWeightL r < rowWeightL (procLeft r).row))
    ∧ rowSum (procLeft r).row = rowSum r
    ∧ Good r (procLeft r)
    ∧ (mergedAny (procLeft r) = false → settledL (procLeft r).row) := by
  obtain ⟨s1, s2, e1, e2, e3⟩ := procLeft_decomp r
  rw [e3]
  obtain ⟨A1, sum1, good1, ec3a, ec2a, em3a, em2a, em1a, mono0a, settle1⟩ :=
    gstepL1_spec r (initMState r) s1 e1 rfl (goodInit r)
  have hm2s1 : s1.m2 = false := em2a
  obtain ⟨A2, sum2, good2, ec3b, em3b, em2b, mono1b, mono0b, settle2⟩ :=
    gstepL2_spec r s1 s2 e2 hm2s1 good1
  have hm3s2 : s2.m3 = false := em3b.trans em3a
  obtain ⟨A3, sum3, good3, em3c, mono2c, mono1c, mono0c, settle3⟩ :=
    gstepL3_spec r s2 _ rfl hm3s2 good2
  refine ⟨?_, ?_, good3, ?_⟩
  · rcases A1 with eA1 | ⟨mv1, w1⟩
    · rcases A2 with eA2 | ⟨mv2, w2⟩
      · have hw21 : rowWeightL s2.row = rowWeightL r := by
          rw [eA2, eA1]
          rfl
        rcases A3 with eA3 | ⟨mv3, w3⟩
        · rw [eA3, eA2, eA1]
          exact Or.inl rfl
        · exact Or.inr ⟨mv3, lt_of_le_of_lt (le_of_eq hw21.symm) w3⟩
      · have hw10 : rowWeightL s1.row = rowWeightL r := by
          rw [eA1]
          rfl
        rcases A3 with eA3 | ⟨mv3, w3⟩
        · rw [eA3]
          exact Or.inr ⟨mv2, lt_of_le_of_lt (le_of_eq hw10.symm) w2⟩
        · exact Or.inr
            ⟨mv3, lt_trans (lt_of_le_of_lt (le_of_eq hw10.symm) w2) w3⟩
    · rcases A2 with eA2 | ⟨mv2, w2⟩
      · have hw21 : rowWeightL s2.row = rowWeightL s1.row := by
          rw [eA2]
        rcases A3 with eA3 | ⟨mv3, w3⟩
        · rw [eA3, eA2]
          exact Or.inr ⟨mv1, w1⟩
        · exact Or.inr
            ⟨mv3, lt_trans (lt_of_lt_of_le w1 (le_of_eq hw21.symm)) w3⟩
      · rcases A3 with eA3 | ⟨mv3, w3⟩
        · rw [eA3]
          exact Or.inr ⟨mv2, lt_trans w1 w2⟩
        · exact Or.inr ⟨mv3, lt_trans (lt_trans w1 w2) w3⟩
  · rw [sum3, sum2, sum1]
    rfl
  · intro hma
    simp only [mergedAny, Bool.or_eq_false_iff] at hma
    obtain ⟨⟨⟨hq0, hq1⟩, hq2⟩, _⟩ := hma
    have hm0s2 : s2.m0 = false := mono_false mono0c hq0
    have hm1s2 : s2.m1 = false := mono_false mono1c hq1
    have hm2s2 : s2.m2 = false := em2b.trans hm2s1
    have hm0s1 : s1.m0 = false := mono_false mono0b hm0s2
    have hm1s1 : s1.m1 = false := em1a
    have hset1s1 : settleAt1L s1.row := settle1 rfl hm0s1
    obtain ⟨hset2s2, hset1s2⟩ := settle2 hm1s1 hm0s1 hset1s1 hm1s2 hm0s2
    obtain ⟨h3, h2, h1⟩ := settle3 hm2s2 hm1s2 hm0s2 hset2s2 hset1s2 hq2 hq1 hq0
    exact ⟨h1, h2, h3⟩

/-! ### Row-level corollaries -/

/-- Dichotomy for the rightward pass: either nothing moved and the row is
unchanged, or `moved` is reported and the row differs. -/
theorem procRight_cases (r : Row) :
    ((procRight r).moved = false ∧ (procRight r).row = r)
    ∨ ((procRight r).moved = true ∧ (procRight r).row ≠ r) := by
  obtain ⟨A, _, _, _⟩ := procRight_spec r
  rcases A with e | ⟨mv, w⟩
  · left
    rw [e]
    exact ⟨rfl, rfl⟩
  · right
    refine ⟨mv, ?_⟩
    intro hr
    rw [hr] at w
    exact lt_irrefl _ w

/-- Dichotomy for the leftward pass. -/
theorem procLeft_cases (r : Row) :
    ((procLeft r).moved = false ∧ (procLeft r).row = r)
    ∨ ((procLeft r).moved = true ∧ (procLeft r).row ≠ r) := by
  obtain ⟨A, _, _, _⟩ := procLeft_spec r
  rcases A with e | ⟨mv, w⟩
  · left
    rw [e]
    exact ⟨rfl, rfl⟩
  · right
    refine ⟨mv, ?_⟩
    intro hr
    rw [hr] at w
    exact lt_irrefl _ w

/-- On a settled row the rightward pass does nothing at all. -/
theorem procRight_settled (r : Row) (h : settledR r) : procRight r = initMState r := by
  obtain ⟨h2, h1, h0⟩ := h
  unfold settleAt2 at h2
  unfold settleAt1 at h1
  unfold settleAt0 at h0
  obtain ⟨s1, s2, e1, e2, e3⟩ := procRight_decomp r
  have E1 : (if (initMState r).row.c2 ≠ 0 then stepR2 (initMState r) else initMState r)
      = initMState r := by
    by_cases hc : (initMState r).row.c2 ≠ 0
    · rw [if_pos hc]
      unfold stepR2 initMState
      dsimp only
      rw [if_neg (h2 hc).1, if_neg (fun hx => (h2 hc).2 hx.1)]
    · rw [if_neg hc]
  rw [E1] at e1
  subst e1
  have E2 : (if (initMState r).row.c1 ≠ 0 then stepR1 (initMState r) else initMState r)
      = initMState r := by
    by_cases hc : (initMState r).row.c1 ≠ 0
    · rw [if_pos hc]
      unfold stepR1 initMState
      dsimp only
      rw [if_neg (h1 hc).1, if_neg (fun hx => (h1 hc).2 hx.1)]
    · rw [if_neg hc]
  rw [E2] at e2
  subst e2
  have E3 : (if (initMState r).row.c0 ≠ 0 then stepR0 (initMState r) else initMState r)
      = initMState r := by
    by_cases hc : (initMState r).row.c0 ≠ 0
    · rw [if_pos hc]
      unfold stepR0 initMState
      dsimp only
      rw [if_neg (h0 hc).1, if_neg (fun hx => (h0 hc).2 hx.1)]
    · rw [if_neg hc]
  exact e3.trans E3

/-- On a left-settled row the leftward pass does nothing at all. -/
theorem procLeft_settled (r : Row) (h : settledL r) : procLeft r = initMState r := by
  obtain ⟨h1, h2, h3⟩ := h
  unfold settleAt1L at h1
  unfold settleAt2L at h2
  unfold settleAt3L at h3
  obtain ⟨s1, s2, e1, e2, e3⟩ := procLeft_decomp r
  have E1 : (if (initMState r).row.c1 ≠ 0 then stepL1 (initMState r) else initMState r)
      = initMState r := by
    by_cases hc : (initMState r).row.c1 ≠ 0
    · rw [if_pos hc]
      unfold stepL1 initMState
      dsimp only
      rw [if_neg (h1 hc).1, if_neg (fun hx => (h1 hc).2 hx.1)]
    · rw [if_neg hc]
  rw [E1] at e1
  subst e1
  have E2 : (if (initMState r).row.c2 ≠ 0 then stepL2 (initMState r) else initMState r)
      = initMState r := by
    by_cases hc : (initMState r).row.c2 ≠ 0
    · rw [if_pos hc]
      unfold stepL2 initMState
      dsimp only
      rw [if_neg (h2 hc).1, if_neg (fun hx => (h2 hc).2 hx.1)]
    · rw [if_neg hc]
  rw [E2] at e2
  subst e2
  have E3 : (if (initMState r).row.c3 ≠ 0 then stepL3 (initMState r) else initMState r)
      = initMState r := by
    by_cases hc : (initMState r).row.c3 ≠ 0
    · rw [if_pos hc]
      unfold stepL3 initMState
      dsimp only
      rw [if_neg (h3 hc).1, if_neg (fun hx => (h3 hc).2 hx.1)]
    · rw [if_neg hc]
  exact e3.trans E3

/-! ### Transpose facts and grid-level movement reporting -/

/-- Transposing twice is the identity. -/
theorem transpose_transpose (g : Grid) : transpose (transpose g) = g := rfl

/-- `transpose` moves across an equality. -/
theorem transpose_eq_iff {g h : Grid} : transpose g = h ↔ g = transpose h := by
  constructor
  · intro e
    rw [← e, transpose_transpose]
  · intro e
    rw [e, transpose_transpose]

/-- `move_right` reports `moved = true` exactly when the grid changed. -/
theorem move_right_iff (g : Grid) :
    (move_right g).2 = true ↔ (move_right g).1 ≠ g := by
  obtain ⟨q0, q1, q2, q3⟩ := g
  unfold move_right
  dsimp only
  rcases procRight_cases q0 with ⟨f0, e0⟩ | ⟨t0, n0⟩ <;>
    rcases procRight_cases q1 with ⟨f1, e1⟩ | ⟨t1, n1⟩ <;>
    rcases procRight_cases q2 with ⟨f2, e2⟩ | ⟨t2, n2⟩ <;>
    rcases procRight_cases q3 with ⟨f3, e3⟩ | ⟨t3, n3⟩ <;>
    simp_all [Grid.mk.injEq]

/-- `move_left` reports `moved = true` exactly when the grid changed. -/
theorem move_left_iff (g : Grid) :
    (move_left g).2 = true ↔ (move_left g).1 ≠ g := by
  obtain ⟨q0, q1, q2, q3⟩ := g
  unfold move_left
  dsimp only
  rcases procLeft_cases q0 with ⟨f0, e0⟩ | ⟨t0, n0⟩ <;>
    rcases procLeft_cases q1 with ⟨f1, e1⟩ | ⟨t1, n1⟩ <;>
    rcases procLeft_cases q2 with ⟨f2, e2⟩ | ⟨t2, n2⟩ <;>
    rcases procLeft_cases q3 with ⟨f3, e3⟩ | ⟨t3, n3⟩ <;>
    simp_all [Grid.mk.injEq]

/-- `move_up` reports `moved = true` exactly when the grid changed. -/
theorem move_up_iff (g : Grid) :
    (move_up g).2 = true ↔ (move_up g).1 ≠ g := by
  unfold move_up
  dsimp only
  rw [move_left_iff (transpose g)]
  constructor
  · intro h e
    exact h (transpose_eq_iff.mp e)
  · intro h e
    exact h (transpose_eq_iff.mpr e)

/-- `move_down` reports `moved = true` exactly when the grid changed. -/
theorem move_down_iff (g : Grid) :
    (move_down g).2 = true ↔ (move_down g).1 ≠ g := by
  unfold move_down
  dsimp only
  rw [move_right_iff (transpose g)]
  constructor
  · intro h e
    exact h (transpose_eq_iff.mp e)
  · intro h e
    exact h (transpose_eq_iff.mpr e)

/-! ### Cell access and spawning lemmas -/

/-- Reading back the freshly written cell. -/
theorem Grid.get_set_same (g : Grid) (p : Pos) (v : Nat) : (g.set p v).get p = v := by
  obtain ⟨i, j⟩ := p
  fin_cases i <;> fin_cases j <;> rfl

/-- Writing one cell leaves every other cell unchanged. -/
theorem Grid.get_set_ne (g : Grid) (p q : Pos) (v : Nat) (h : q ≠ p) :
    (g.set p v).get q = g.get q := by
  obtain ⟨i, j⟩ := p
  obtain ⟨i', j'⟩ := q
  fin_cases i <;> fin_cases j <;> fin_cases i' <;> fin_cases j' <;>
    first
      | rfl
      | exact absurd rfl h

/-- Every position occurs in the row-major scan. -/
theorem mem_allPositions : ∀ p : Pos, p ∈ allPositions := by
  decide

/-- A position is collected by the empty-cell scan iff its cell is 0. -/
theorem mem_emptyCells (g : Grid) (p : Pos) : p ∈ emptyCells g ↔ g.get p = 0 := by
  unfold emptyCells
  rw [List.mem_filter]
  simp [mem_allPositions p]

/-- The empty-cell scan comes back empty iff the grid is full. -/
theorem emptyCells_nil_iff (g : Grid) : emptyCells g = [] ↔ ∀ p : Pos, g.get p ≠ 0 := by
  rw [List.eq_nil_iff_forall_not_mem]
  simp [mem_emptyCells]

/-- On a full grid the spawner is a silent no-op. -/
theorem add_random_tile_full (g : Grid) (k : Nat) (b : Bool)
    (h : ∀ p : Pos, g.get p ≠ 0) : add_random_tile g k b = g := by
  unfold add_random_tile
  dsimp only
  rw [dif_pos ((emptyCells_nil_iff g).mpr h)]

/-- On a grid with an empty cell the spawner writes a 2 or a 4 into some
cell that was 0, and does nothing else. -/
theorem add_random_tile_spawn (g : Grid) (k : Nat) (b : Bool)
    (h : ∃ p : Pos, g.get p = 0) :
    ∃ p : Pos, g.get p = 0 ∧ add_random_tile g k b = g.set p (if b then 2 else 4) := by
  have hne : emptyCells g ≠ [] := by
    obtain ⟨p, hp⟩ := h
    intro hnil
    rw [emptyCells_nil_iff] at hnil
    exact hnil p hp
  unfold add_random_tile
  dsimp only
  rw [dif_neg hne]
  refine ⟨_, ?_, rfl⟩
  exact (mem_emptyCells g _).mp (List.get_mem _ _ _)

/-- Writing a non-zero value into an empty cell raises the non-empty cell
count by exactly one. -/
theorem countNonzero_set (g : Grid) (p : Pos) (v : Nat)
    (h0 : g.get p = 0) (hv : v ≠ 0) :
    countNonzero (g.set p v) = countNonzero g + 1 := by
  obtain ⟨i, j⟩ := p
  fin_cases i <;> fin_cases j <;>
    simp_all [Grid.get, Grid.row, Row.get, countNonzero, rowCount, Grid.set,
      Grid.setRow, Row.set] <;>
    omega

/-- Every cell of the all-zero grid is 0. -/
theorem zeroGrid_get : ∀ p : Pos, zeroGrid.get p = 0 := by
  decide

/-- The all-zero grid has no non-empty cell. -/
theorem countNonzero_zeroGrid : countNonzero zeroGrid = 0 := rfl

/-- There is always a second, different position. -/
theorem exists_ne_pos : ∀ p : Pos, ∃ q : Pos, q ≠ p := by
  decide

/-! ### Provenance, sums and the power-of-two invariant -/

/-- A non-empty cell satisfying the mid-run invariant is an original
tile value or exactly double one. -/
theorem cellOk_nonzero {r₀ : Row} {m : Bool} {v : Nat}
    (h : cellOk r₀ m v) (hv : v ≠ 0) : srcMem v r₀ ∨ dblMem v r₀ := by
  cases m
  · exact Or.inl (srcMem_of_cellOk h hv)
  · simp only [cellOk, if_true] at h
    exact Or.inr h

/-- Provenance of each non-empty cell after the rightward pass. -/
theorem procRight_prov (r : Row) (v : Nat) (hv : v ≠ 0)
    (h : srcMem v (procRight r).row) : srcMem v r ∨ dblMem v r := by
  obtain ⟨_, _, ⟨h0, h1, h2, h3⟩, _⟩ := procRight_spec r
  unfold srcMem at h
  rcases h with e | e | e | e <;> subst e
  · exact cellOk_nonzero h0 hv
  · exact cellOk_nonzero h1 hv
  · exact cellOk_nonzero h2 hv
  · exact cellOk_nonzero h3 hv

/-- Provenance of each non-empty cell after the leftward pass. -/
theorem procLeft_prov (r : Row) (v : Nat) (hv : v ≠ 0)
    (h : srcMem v (procLeft r).row) : srcMem v r ∨ dblMem v r := by
  obtain ⟨_, _, ⟨h0, h1, h2, h3⟩, _⟩ := procLeft_spec r
  unfold srcMem at h
  rcases h with e | e | e | e <;> subst e
  · exact cellOk_nonzero h0 hv
  · exact cellOk_nonzero h1 hv
  · exact cellOk_nonzero h2 hv
  · exact cellOk_nonzero h3 hv

/-- Provenance for `move_right`, grid level. -/
theorem move_right_prov (g : Grid) (v : Nat) (hv : v ≠ 0)
    (h : memGrid v (move_right g).1) : memGrid v g ∨ dblGrid v g := by
  unfold move_right at h
  dsimp only at h
  unfold memGrid at h ⊢
  unfold dblGrid
  dsimp only at h
  rcases h with h | h | h | h
  · rcases procRight_prov g.r0 v hv h with hs | hd
    · exact Or.inl (Or.inl hs)
    · exact Or.inr (Or.inl hd)
  · rcases procRight_prov g.r1 v hv h with hs | hd
    · exact Or.inl (Or.inr (Or.inl hs))
    · exact Or.inr (Or.inr (Or.inl hd))
  · rcases procRight_prov g.r2 v hv h with hs | hd
    · exact Or.inl (Or.inr (Or.inr (Or.inl hs)))
    · exact Or.inr (Or.inr (Or.inr (Or.inl hd)))
  · rcases procRight_prov g.r3 v hv h with hs | hd
    · exact Or.inl (Or.inr (Or.inr (Or.inr hs)))
    · exact Or.inr (Or.inr (Or.inr (Or.inr hd)))

/-- Provenance for `move_left`, grid level. -/
theorem move_left_prov (g : Grid) (v : Nat) (hv : v ≠ 0)
    (h : memGrid v (move_left g).1) : memGrid v g ∨ dblGrid v g := by
  unfold move_left at h
  dsimp only at h
  unfold memGrid at h ⊢
  unfold dblGrid
  dsimp only at h
  rcases h with h | h | h | h
  · rcases procLeft_prov g.r0 v hv h with hs | hd
    · exact Or.inl (Or.inl hs)
    · exact Or.inr (Or.inl hd)
  · rcases procLeft_prov g.r1 v hv h with hs | hd
    · exact Or.inl (Or.inr (Or.inl hs))
    · exact Or.inr (Or.inr (Or.inl hd))
  · rcases procLeft_prov g.r2 v hv h with hs | hd
    · exact Or.inl (Or.inr (Or.inr (Or.inl hs)))
    · exact Or.inr (Or.inr (Or.inr (Or.inl hd)))
  · rcases procLeft_prov g.r3 v hv h with hs | hd
    · exact Or.inl (Or.inr (Or.inr (Or.inr hs)))
    · exact Or.inr (Or.inr (Or.inr (Or.inr hd)))

/-- The cell values of the transposed grid are the cell values of the
grid. -/
theorem memGrid_transpose (v : Nat) (g : Grid) : memGrid v (transpose g) ↔ memGrid v g := by
  obtain ⟨⟨a0, a1, a2, a3⟩, ⟨b0, b1, b2, b3⟩, ⟨c0, c1, c2, c3⟩, ⟨d0, d1, d2, d3⟩⟩ := g
  unfold memGrid srcMem transpose
  dsimp only
  constructor <;> intro h <;>
    rcases h with (h | h | h | h) | (h | h | h | h) | (h | h | h | h) | (h | h | h | h) <;>
    first
      | exact Or.inl (Or.inl h)
      | exact Or.inl (Or.inr (Or.inl h))
      | exact Or.inl (Or.inr (Or.inr (Or.inl h)))
      | exact Or.inl (Or.inr (Or.inr (Or.inr h)))
      | exact Or.inr (Or.inl (Or.inl h))
      | exact Or.inr (Or.inl (Or.inr (Or.inl h)))
      | exact Or.inr (Or.inl (Or.inr (Or.inr (Or.inl h))))
      | exact Or.inr (Or.inl (Or.inr (Or.inr (Or.inr h))))
      | exact Or.inr (Or.inr (Or.inl (Or.inl h)))
      | exact Or.inr (Or.inr (Or.inl (Or.inr (Or.inl h))))
      | exact Or.inr (Or.inr (Or.inl (Or.inr (Or.inr (Or.inl h)))))
      | exact Or.inr (Or.inr (Or.inl (Or.inr (Or.inr (Or.inr h)))))
      | exact Or.inr (Or.inr (Or.inr (Or.inl h)))
      | exact Or.inr (Or.inr (Or.inr (Or.inr (Or.inl h))))
      | exact Or.inr (Or.inr (Or.inr (Or.inr (Or.inr (Or.inl h)))))
      | exact Or.inr (Or.inr (Or.inr (Or.inr (Or.inr (Or.inr h)))))

/-- The doubled cell values of the transposed grid are those of the grid. -/
theorem dblGrid_transpose (v : Nat) (g : Grid) : dblGrid v (transpose g) ↔ dblGrid v g := by
  obtain ⟨⟨a0, a1, a2, a3⟩, ⟨b0, b1, b2, b3⟩, ⟨c0, c1, c2, c3⟩, ⟨d0, d1, d2, d3⟩⟩ := g
  unfold dblGrid dblMem transpose
  dsimp only
  constructor <;> intro h <;>
    rcases h with (h | h | h | h) | (h | h | h | h) | (h | h | h | h) | (h | h | h | h) <;>
    first
      | exact Or.inl (Or.inl h)
      | exact Or.inl (Or.inr (Or.inl h))
      | exact Or.inl (Or.inr (Or.inr (Or.inl h)))
      | exact Or.inl (Or.inr (Or.inr (Or.inr h)))
      | exact Or.inr (Or.inl (Or.inl h))
      | exact Or.inr (Or.inl (Or.inr (Or.inl h)))
      | exact Or.inr (Or.inl (Or.inr (Or.inr (Or.inl h))))
      | exact Or.inr (Or.inl (Or.inr (Or.inr (Or.inr h))))
      | exact Or.inr (Or.inr (Or.inl (Or.inl h)))
      | exact Or.inr (Or.inr (Or.inl (Or.inr (Or.inl h))))
      | exact Or.inr (Or.inr (Or.inl (Or.inr (Or.inr (Or.inl h)))))
      | exact Or.inr (Or.inr (Or.inl (Or.inr (Or.inr (Or.inr h)))))
      | exact Or.inr (Or.inr (Or.inr (Or.inl h)))
      | exact Or.inr (Or.inr (Or.inr (Or.inr (Or.inl h))))
      | exact Or.inr (Or.inr (Or.inr (Or.inr (Or.inr (Or.inl h)))))
      | exact Or.inr (Or.inr (Or.inr (Or.inr (Or.inr (Or.inr h)))))

/-- `move_right` preserves the total of all cell values. -/
theorem gridSum_move_right (g : Grid) : gridSum (move_right g).1 = gridSum g := by
  unfold move_right gridSum
  dsimp only
  rw [(procRight_spec g.r0).2.1, (procRight_spec g.r1).2.1,
    (procRight_spec g.r2).2.1, (procRight_spec g.r3).2.1]

/-- `move_left` preserves the total of all cell values. -/
theorem gridSum_move_left (g : Grid) : gridSum (move_left g).1 = gridSum g := by
  unfold move_left gridSum
  dsimp only
  rw [(procLeft_spec g.r0).2.1, (procLeft_spec g.r1).2.1,
    (procLeft_spec g.r2).2.1, (procLeft_spec g.r3).2.1]

/-- Transposing preserves the total of all cell values. -/
theorem gridSum_transpose (g : Grid) : gridSum (transpose g) = gridSum g := by
  obtain ⟨⟨a0, a1, a2, a3⟩, ⟨b0, b1, b2, b3⟩, ⟨c0, c1, c2, c3⟩, ⟨d0, d1, d2, d3⟩⟩ := g
  unfold gridSum rowSum transpose
  dsimp only
  omega

/-- A cell satisfying the mid-run invariant over a power-of-two row is a
power of two (or empty). -/
theorem powCell_of_cellOk {r₀ : Row} {m : Bool} {v : Nat}
    (h : cellOk r₀ m v) (hp : powRow r₀) : powCell v := by
  intro hv
  obtain ⟨p0, p1, p2, p3⟩ := hp
  rcases cellOk_nonzero h hv with hs | hd
  · unfold srcMem at hs
    rcases hs with e | e | e | e <;> subst e
    · exact p0 hv
    · exact p1 hv
    · exact p2 hv
    · exact p3 hv
  · unfold dblMem at hd
    rcases hd with ⟨e, hne⟩ | ⟨e, hne⟩ | ⟨e, hne⟩ | ⟨e, hne⟩ <;> subst e
    · obtain ⟨k, hk1, hk2⟩ := p0 hne
      exact ⟨k + 1, by omega, by rw [hk2, pow_succ]; ring⟩
    · obtain ⟨k, hk1, hk2⟩ := p1 hne
      exact ⟨k + 1, by omega, by rw [hk2, pow_succ]; ring⟩
    · obtain ⟨k, hk1, hk2⟩ := p2 hne
      exact ⟨k + 1, by omega, by rw [hk2, pow_succ]; ring⟩
    · obtain ⟨k, hk1, hk2⟩ := p3 hne
      exact ⟨k + 1, by omega, by rw [hk2, pow_succ]; ring⟩

/-- The rightward pass preserves the power-of-two row invariant. -/
theorem powRow_procRight (r : Row) (h : powRow r) : powRow (procRight r).row := by
  obtain ⟨_, _, ⟨h0, h1, h2, h3⟩, _⟩ := procRight_spec r
  exact ⟨powCell_of_cellOk h0 h, powCell_of_cellOk h1 h,
    powCell_of_cellOk h2 h, powCell_of_cellOk h3 h⟩

/-- The leftward pass preserves the power-of-two row invariant. -/
theorem powRow_procLeft (r : Row) (h : powRow r) : powRow (procLeft r).row := by
  obtain ⟨_, _, ⟨h0, h1, h2, h3⟩, _⟩ := procLeft_spec r
  exact ⟨powCell_of_cellOk h0 h, powCell_of_cellOk h1 h,
    powCell_of_cellOk h2 h, powCell_of_cellOk h3 h⟩

/-- Transposing preserves the power-of-two grid invariant. -/
theorem powGrid_transpose (g : Grid) : powGrid (transpose g) ↔ powGrid g := by
  obtain ⟨⟨a0, a1, a2, a3⟩, ⟨b0, b1, b2, b3⟩, ⟨c0, c1, c2, c3⟩, ⟨d0, d1, d2, d3⟩⟩ := g
  unfold powGrid powRow transpose
  dsimp only
  tauto

/-- Every move preserves the power-of-two grid invariant. -/
theorem powGrid_move_tiles (d : Direction) (g : Grid) (h : powGrid g) :
    powGrid (move_tiles d g).1 := by
  have right : ∀ g', powGrid g' → powGrid (move_right g').1 := by
    intro g' hg
    obtain ⟨h0, h1, h2, h3⟩ := hg
    exact ⟨powRow_procRight _ h0, powRow_procRight _ h1,
      powRow_procRight _ h2, powRow_procRight _ h3⟩
  have left : ∀ g', powGrid g' → powGrid (move_left g').1 := by
    intro g' hg
    obtain ⟨h0, h1, h2, h3⟩ := hg
    exact ⟨powRow_procLeft _ h0, powRow_procLeft _ h1,
      powRow_procLeft _ h2, powRow_procLeft _ h3⟩
  cases d
  · exact (powGrid_transpose _).mpr (left _ ((powGrid_transpose g).mpr h))
  · exact (powGrid_transpose _).mpr (right _ ((powGrid_transpose g).mpr h))
  · exact left g h
  · exact right g h

/-- A spawn value is a power of two. -/
theorem powCell_spawn (v : Nat) (h : v = 2 ∨ v = 4) : powCell v := by
  rcases h with rfl | rfl
  · exact fun _ => ⟨1, le_refl 1, rfl⟩
  · exact fun _ => ⟨2, by omega, rfl⟩

/-- Writing a 2 or a 4 preserves the power-of-two grid invariant. -/
theorem powGrid_set (g : Grid) (p : Pos) (v : Nat) (h : powGrid g)
    (hv : v = 2 ∨ v = 4) : powGrid (g.set p v) := by
  have hpv : powCell v := powCell_spawn v hv
  obtain ⟨i, j⟩ := p
  fin_cases i <;> fin_cases j <;>
    simp_all [Grid.set, Grid.setRow, Grid.row, Row.set, powGrid, powRow]

/-- The spawner preserves the power-of-two grid invariant. -/
theorem powGrid_spawn (g : Grid) (k : Nat) (b : Bool) (h : powGrid g) :
    powGrid (add_random_tile g k b) := by
  by_cases he : ∀ p : Pos, g.get p ≠ 0
  · rw [add_random_tile_full g k b he]
    exact h
  · push_neg at he
    obtain ⟨p, h0, e⟩ := add_random_tile_spawn g k b he
    rw [e]
    apply powGrid_set _ _ _ h
    cases b
    · exact Or.inr rfl
    · exact Or.inl rfl

/-- The all-zero grid satisfies the power-of-two invariant. -/
theorem powGrid_zero : powGrid zeroGrid := by
  simp [powGrid, powRow, powCell, zeroGrid, zeroRow]

/-! ### Characterisation of the terminal-state detector -/
set_option maxHeartbeats 1600000 in
theorem has_moves_iff (g : Grid) :
    has_moves_available g = true ↔
      ((∃ p : Pos, g.get p = 0)
        ∨ (∃ (i : Fin 4) (j : Fin 3), g.get (i, j.castSucc) = g.get (i, j.succ))
        ∨ (∃ (i : Fin 3) (j : Fin 4), g.get (i.castSucc, j) = g.get (i.succ, j))) := by
  constructor
  · intro h
    unfold has_moves_available at h
    simp only [Bool.or_eq_true, beq_iff_eq] at h
    repeat' (obtain h | h := h)
    all_goals
      first
        | exact Or.inl ⟨((0 : Fin 4), (0 : Fin 4)), h⟩
        | exact Or.inl ⟨((0 : Fin 4), (1 : Fin 4)), h⟩
        | exact Or.inl ⟨((0 : Fin 4), (2 : Fin 4)), h⟩
        | exact Or.inl ⟨((0 : Fin 4), (3 : Fin 4)), h⟩
        | exact Or.inl ⟨((1 : Fin 4), (0 : Fin 4)), h⟩
        | exact Or.inl ⟨((1 : Fin 4), (1 : Fin 4)), h⟩
        | exact Or.inl ⟨((1 : Fin 4), (2 : Fin 4)), h⟩
        | exact Or.inl ⟨((1 : Fin 4), (3 : Fin 4)), h⟩
        | exact Or.inl ⟨((2 : Fin 4), (0 : Fin 4)), h⟩
        | exact Or.inl ⟨((2 : Fin 4), (1 : Fin 4)), h⟩
        | exact Or.inl ⟨((2 : Fin 4), (2 : Fin 4)), h⟩
        | exact Or.inl ⟨((2 : Fin 4), (3 : Fin 4)), h⟩
        | exact Or.inl ⟨((3 : Fin 4), (0 : Fin 4)), h⟩
        | exact Or.inl ⟨((3 : Fin 4), (1 : Fin 4)), h⟩
        | exact Or.inl ⟨((3 : Fin 4), (2 : Fin 4)), h⟩
        | exact Or.inl ⟨((3 : Fin 4), (3 : Fin 4)), h⟩
        | exact Or.inr (Or.inl ⟨(0 : Fin 4), (0 : Fin 3), h⟩)
        | exact Or.inr (Or.inl ⟨(0 : Fin 4), (1 : Fin 3), h⟩)
        | exact Or.inr (Or.inl ⟨(0 : Fin 4), (2 : Fin 3), h⟩)
        | exact Or.inr (Or.inl ⟨(1 : Fin 4), (0 : Fin 3), h⟩)
        | exact Or.inr (Or.inl ⟨(1 : Fin 4), (1 : Fin 3), h⟩)
        | exact Or.inr (Or.inl ⟨(1 : Fin 4), (2 : Fin 3), h⟩)
        | exact Or.inr (Or.inl ⟨(2 : Fin 4), (0 : Fin 3), h⟩)
        | exact Or.inr (Or.inl ⟨(2 : Fin 4), (1 : Fin 3), h⟩)
        | exact Or.inr (Or.inl ⟨(2 : Fin 4), (2 : Fin 3), h⟩)
        | exact Or.inr (Or.inl ⟨(3 : Fin 4), (0 : Fin 3), h⟩)
        | exact Or.inr (Or.inl ⟨(3 : Fin 4), (1 : Fin 3), h⟩)
        | exact Or.inr (Or.inl ⟨(3 : Fin 4), (2 : Fin 3), h⟩)
        | exact Or.inr (Or.inr ⟨(0 : Fin 3), (0 : Fin 4), h⟩)
        | exact Or.inr (Or.inr ⟨(0 : Fin 3), (1 : Fin 4), h⟩)
        | exact Or.inr (Or.inr ⟨(0 : Fin 3), (2 : Fin 4), h⟩)
        | exact Or.inr (Or.inr ⟨(0 : Fin 3), (3 : Fin 4), h⟩)
        | exact Or.inr (Or.inr ⟨(1 : Fin 3), (0 : Fin 4), h⟩)
        | exact Or.inr (Or.inr ⟨(1 : Fin 3), (1 : Fin 4), h⟩)
        | exact Or.inr (Or.inr ⟨(1 : Fin 3), (2 : Fin 4), h⟩)
        | exact Or.inr (Or.inr ⟨(1 : Fin 3), (3 : Fin 4), h⟩)
        | exact Or.inr (Or.inr ⟨(2 : Fin 3), (0 : Fin 4), h⟩)
        | exact Or.inr (Or.inr ⟨(2 : Fin 3), (1 : Fin 4), h⟩)
        | exact Or.inr (Or.inr ⟨(2 : Fin 3), (2 : Fin 4), h⟩)
        | exact Or.inr (Or.inr ⟨(2 : Fin 3), (3 : Fin 4), h⟩)
  · intro h
    rcases h with ⟨⟨i, j⟩, hp⟩ | ⟨i, j, hp⟩ | ⟨i, j, hp⟩
    · fin_cases i <;> fin_cases j <;>
        (dsimp only [Grid.get, Grid.row, Row.get] at hp
         simp [has_moves_available, hp])
    · fin_cases i <;> fin_cases j <;>
        (simp only [Grid.get, Grid.row, Row.get, Fin.castSucc, Fin.castAdd, Fin.castLE,
           Fin.succ] at hp
         simp [has_moves_available, hp])
    · fin_cases i <;> fin_cases j <;>
        (simp only [Grid.get, Grid.row, Row.get, Fin.castSucc, Fin.castAdd, Fin.castLE,
           Fin.succ] at hp
         simp [has_moves_available, hp])

/-! ### A second pass after a merge-free pass does nothing -/

/-- If a rightward move performed no merge, repeating it moves nothing. -/
theorem move_right_noMerge_second (g : Grid)
    (h : move_merged .Right g = false) :
    (move_right ((move_right g).1)).2 = false := by
  unfold move_merged at h
  dsimp only at h
  simp only [Bool.or_eq_false_iff] at h
  obtain ⟨⟨⟨h0, h1⟩, h2⟩, h3⟩ := h
  have s0 := (procRight_spec g.r0).2.2.2 h0
  have s1 := (procRight_spec g.r1).2.2.2 h1
  have s2 := (procRight_spec g.r2).2.2.2 h2
  have s3 := (procRight_spec g.r3).2.2.2 h3
  unfold move_right
  dsimp only
  rw [procRight_settled _ s0, procRight_settled _ s1, procRight_settled _ s2,
    procRight_settled _ s3]
  rfl

/-- If a leftward move performed no merge, repeating it moves nothing. -/
theorem move_left_noMerge_second (g : Grid)
    (h : move_merged .Left g = false) :
    (move_left ((move_left g).1)).2 = false := by
  unfold move_merged at h
  dsimp only at h
  simp only [Bool.or_eq_false_iff] at h
  obtain ⟨⟨⟨h0, h1⟩, h2⟩, h3⟩ := h
  have s0 := (procLeft_spec g.r0).2.2.2 h0
  have s1 := (procLeft_spec g.r1).2.2.2 h1
  have s2 := (procLeft_spec g.r2).2.2.2 h2
  have s3 := (procLeft_spec g.r3).2.2.2 h3
  unfold move_left
  dsimp only
  rw [procLeft_settled _ s0, procLeft_settled _ s1, procLeft_settled _ s2,
    procLeft_settled _ s3]
  rfl

/-! ### Direction-generic sum and provenance -/

/-- Every move preserves the total of all cell values. -/
theorem gridSum_move_tiles (d : Direction) (g : Grid) :
    gridSum (move_tiles d g).1 = gridSum g := by
  cases d
  · show gridSum (transpose (move_left (transpose g)).1) = gridSum g
    rw [gridSum_transpose, gridSum_move_left, gridSum_transpose]
  · show gridSum (transpose (move_right (transpose g)).1) = gridSum g
    rw [gridSum_transpose, gridSum_move_right, gridSum_transpose]
  · exact gridSum_move_left g
  · exact gridSum_move_right g

/-- Provenance of each non-empty cell after any move. -/
theorem move_tiles_prov (d : Direction) (g : Grid) (v : Nat) (hv : v ≠ 0)
    (h : memGrid v (move_tiles d g).1) : memGrid v g ∨ dblGrid v g := by
  cases d
  · have h' : memGrid v (move_left (transpose g)).1 :=
      (memGrid_transpose v _).mp h
    rcases move_left_prov (transpose g) v hv h' with hs | hd
    · exact Or.inl ((memGrid_transpose v g).mp hs)
    · exact Or.inr ((dblGrid_transpose v g).mp hd)
  · have h' : memGrid v (move_right (transpose g)).1 :=
      (memGrid_transpose v _).mp h
    rcases move_right_prov (transpose g) v hv h' with hs | hd
    · exact Or.inl ((memGrid_transpose v g).mp hs)
    · exact Or.inr ((dblGrid_transpose v g).mp hd)
  · exact move_left_prov g v hv h
  · exact move_right_prov g v hv h

/-! ### Two spawns on the empty grid -/

/-- After the two initial spawns on the all-zero grid exactly two cells
are non-empty, each holding a 2 or a 4. -/
theorem newGrid_spec (k1 k2 : Nat) (b1 b2 : Bool) :
    countNonzero (add_random_tile (add_random_tile zeroGrid k1 b1) k2 b2) = 2
    ∧ ∀ p : Pos,
        (add_random_tile (add_random_tile zeroGrid k1 b1) k2 b2).get p ≠ 0 →
        (add_random_tile (add_random_tile zeroGrid k1 b1) k2 b2).get p = 2
          ∨ (add_random_tile (add_random_tile zeroGrid k1 b1) k2 b2).get p = 4 := by
  obtain ⟨p1, hp1, e1⟩ :=
    add_random_tile_spawn zeroGrid k1 b1 ⟨((0 : Fin 4), (0 : Fin 4)), zeroGrid_get _⟩
  have hv1 : (if b1 then 2 else 4) ≠ 0 := by cases b1 <;> simp
  have hc1 : countNonzero (add_random_tile zeroGrid k1 b1) = 1 := by
    rw [e1, countNonzero_set zeroGrid p1 _ (zeroGrid_get p1) hv1, countNonzero_zeroGrid]
  obtain ⟨q, hq⟩ := exists_ne_pos p1
  have hq0 : (add_random_tile zeroGrid k1 b1).get q = 0 := by
    rw [e1, Grid.get_set_ne _ _ _ _ hq, zeroGrid_get]
  obtain ⟨p2, hp2, e2⟩ := add_random_tile_spawn (add_random_tile zeroGrid k1 b1) k2 b2 ⟨q, hq0⟩
  have hv2 : (if b2 then 2 else 4) ≠ 0 := by cases b2 <;> simp
  constructor
  · rw [e2, countNonzero_set _ p2 _ hp2 hv2, hc1]
  · intro p hp
    by_cases hpp2 : p = p2
    · subst hpp2
      rw [e2, Grid.get_set_same]
      cases b2
      · exact Or.inr rfl
      · exact Or.inl rfl
    · rw [e2, Grid.get_set_ne _ _ _ _ hpp2] at hp ⊢
      by_cases hpp1 : p = p1
      · subst hpp1
        rw [e1, Grid.get_set_same]
        cases b1
        · exact Or.inr rfl
        · exact Or.inl rfl
      · rw [e1, Grid.get_set_ne _ _ _ _ hpp1, zeroGrid_get] at hp
        exact absurd rfl hp

/-! ### The claims -/

/-- C1: for every grid and every direction, `move_tiles` returns true if
and only if the grid after the call differs from the grid before the call
in at least one cell; in particular, whenever it returns false the grid
is completely unchanged. -/
theorem claim_C1 (g : Grid) (d : Direction) :
    (move_tiles d g).2 = true ↔ (move_tiles d g).1 ≠ g := by
  cases d
  · exact move_up_iff g
  · exact move_down_iff g
  · exact move_left_iff g
  · exact move_right_iff g

/-- C2: after one `move_tiles` call each resulting non-zero cell value is
either the unchanged value of some pre-move tile or exactly double the
value of some pre-move tile; and (the single-merge discipline behind
this) during each line pass every cell whose `merged` flag is set holds
exactly double one original tile value while every other cell is empty
or an unchanged original value — so no destination cell absorbs more
than one merge and no tile is doubled twice, however long its slide. -/
theorem claim_C2 (g : Grid) (d : Direction) (v : Nat) :
    (v ≠ 0 → memGrid v (move_tiles d g).1 → memGrid v g ∨ dblGrid v g)
    ∧ (∀ r : Row, Good r (procRight r) ∧ Good r (procLeft r)) :=
  ⟨fun hv h => move_tiles_prov d g v hv h,
    fun r => ⟨(procRight_spec r).2.2.1, (procLeft_spec r).2.2.1⟩⟩

/-- Witness for C2 at a concrete input: in `[2,2,4,0]` moved right the
resulting 4s are an unchanged tile and a doubled tile. -/
theorem claim_C2_witness :
    (4 : Nat) ≠ 0 ∧ memGrid 4 (move_tiles .Right gridScenario).1
    ∧ (memGrid 4 gridScenario ∨ dblGrid 4 gridScenario) := by
  refine ⟨by omega, ?_, (claim_C2 gridScenario .Right 4).1 (by omega) ?_⟩ <;>
    exact Or.inl (Or.inr (Or.inr (Or.inl rfl)))

/-- C3: `has_moves_available` is true iff some cell is 0, or some cell
equals its right neighbour, or some cell equals the cell below it;
`check_game_over` is its boolean negation, hence false whenever at least
one cell is 0. -/
theorem claim_C3 (g : Grid) :
    (has_moves_available g = true ↔
      ((∃ p : Pos, g.get p = 0)
        ∨ (∃ (i : Fin 4) (j : Fin 3), g.get (i, j.castSucc) = g.get (i, j.succ))
        ∨ (∃ (i : Fin 3) (j : Fin 4), g.get (i.castSucc, j) = g.get (i.succ, j))))
    ∧ check_game_over g = !has_moves_available g
    ∧ (∀ p : Pos, g.get p = 0 → check_game_over g = false) := by
  refine ⟨has_moves_iff g, rfl, ?_⟩
  intro p hp
  unfold check_game_over
  rw [(has_moves_iff g).mpr (Or.inl ⟨p, hp⟩)]
  rfl

/-- Witness for C3 at a concrete input: the all-zero grid is not game
over. -/
theorem claim_C3_witness : check_game_over zeroGrid = false :=
  (claim_C3 zeroGrid).2.2 ((0 : Fin 4), (0 : Fin 4)) rfl

/-- Counterexample to C4 as stated: on the grid whose first row is
`[2,2,2,2]`, the first rightward move yields `[0,0,4,4]` and returns
true, and the second rightward move — with no intervening spawn — merges
again and also returns true, not false. -/
theorem claim_C4_counterexample :
    (move_tiles .Right gridTwos).2 = true
    ∧ (move_tiles .Right ((move_tiles .Right gridTwos).1)).2 = true :=
  ⟨rfl, rfl⟩

/-- C4 amended: applying `move_tiles` twice in the same direction without
an intervening spawn yields `moved = false` on the second call provided
the first call performed no merge (a merge-free pass leaves the line
packed with no equal adjacent pair; a pass that merged may leave a new
equal pair, as the counterexample shows). -/
theorem claim_C4_amended (g : Grid) (d : Direction)
    (h : move_merged d g = false) :
    (move_tiles d ((move_tiles d g).1)).2 = false := by
  cases d
  · unfold move_tiles move_up
    dsimp only
    rw [transpose_transpose]
    apply move_left_noMerge_second
    unfold move_merged at h ⊢
    exact h
  · unfold move_tiles move_down
    dsimp only
    rw [transpose_transpose]
    apply move_right_noMerge_second
    unfold move_merged at h ⊢
    exact h
  · exact move_left_noMerge_second g h
  · exact move_right_noMerge_second g h

/-- Witness for the amended C4 at a concrete input: `[2,4,0,0]` slides
right without merging, and the second rightward move reports no
movement. -/
theorem claim_C4_amended_witness :
    move_merged .Right gridSlide = false
    ∧ (move_tiles .Right ((move_tiles .Right gridSlide).1)).2 = false :=
  ⟨rfl, claim_C4_amended gridSlide .Right rfl⟩

/-- Counterexample to C5 as stated: on the grid whose first row is
`[2,2,0,0]` a rightward move performs a merge, yet the total of all cell
values is unchanged — so sum equality does not imply that no merge
occurred. -/
theorem claim_C5_counterexample :
    gridSum (move_tiles .Right gridPair).1 = gridSum gridPair
    ∧ move_merged .Right gridPair = true :=
  ⟨rfl, rfl⟩

/-- C5 amended: after one `move_tiles` call the multiset of non-zero
values consists of unchanged and doubled pre-move tile values, and the
sum of all cell values is exactly preserved — hence never smaller —
whether or not a merge occurred (the "equality iff no merge" clause of
the original claim is false, see the counterexample). -/
theorem claim_C5_amended (g : Grid) (d : Direction) :
    (∀ v : Nat, v ≠ 0 → memGrid v (move_tiles d g).1 → memGrid v g ∨ dblGrid v g)
    ∧ gridSum (move_tiles d g).1 = gridSum g
    ∧ gridSum g ≤ gridSum (move_tiles d g).1 := by
  refine ⟨fun v hv h => move_tiles_prov d g v hv h, gridSum_move_tiles d g, ?_⟩
  rw [gridSum_move_tiles d g]

/-- Witness for the amended C5 at a concrete input: the 4 produced by
merging the two 2s of `[2,2,0,0]` is double a pre-move tile. -/
theorem claim_C5_amended_witness :
    (4 : Nat) ≠ 0 ∧ memGrid 4 (move_tiles .Right gridPair).1
    ∧ (memGrid 4 gridPair ∨ dblGrid 4 gridPair) := by
  refine ⟨by omega, ?_, (claim_C5_amended gridPair .Right).1 4 (by omega) ?_⟩ <;>
    exact Or.inl (Or.inr (Or.inr (Or.inr rfl)))

/-- C6: `add_random_tile` is a silent no-op when no cell is 0; otherwise
it sets exactly one cell that was 0 to the value 2 or 4 and changes
nothing else, never overwrites a non-zero cell, and never changes the
count of non-zero cells by more than 1. -/
theorem claim_C6 (g : Grid) (k : Nat) (b : Bool) :
    ((∀ p : Pos, g.get p ≠ 0) → add_random_tile g k b = g)
    ∧ ((∃ p : Pos, g.get p = 0) →
        ∃ p : Pos, g.get p = 0
          ∧ ((add_random_tile g k b).get p = 2 ∨ (add_random_tile g k b).get p = 4)
          ∧ (∀ q : Pos, q ≠ p → (add_random_tile g k b).get q = g.get q)
          ∧ countNonzero (add_random_tile g k b) = countNonzero g + 1)
    ∧ (∀ q : Pos, g.get q ≠ 0 → (add_random_tile g k b).get q = g.get q)
    ∧ countNonzero g ≤ countNonzero (add_random_tile g k b)
    ∧ countNonzero (add_random_tile g k b) ≤ countNonzero g + 1 := by
  have hvb : (if b then 2 else 4 : Nat) ≠ 0 := by cases b <;> simp
  refine ⟨add_random_tile_full g k b, ?_, ?_, ?_, ?_⟩
  · intro h
    obtain ⟨p, hp, e⟩ := add_random_tile_spawn g k b h
    refine ⟨p, hp, ?_, ?_, ?_⟩
    · rw [e, Grid.get_set_same]
      cases b
      · exact Or.inr rfl
      · exact Or.inl rfl
    · intro q hq
      rw [e, Grid.get_set_ne _ _ _ _ hq]
    · rw [e, countNonzero_set g p _ hp hvb]
  · intro q hq
    by_cases hfull : ∀ p : Pos, g.get p ≠ 0
    · rw [add_random_tile_full g k b hfull]
    · push_neg at hfull
      obtain ⟨p, hp, e⟩ := add_random_tile_spawn g k b hfull
      rw [e]
      refine Grid.get_set_ne _ _ _ _ ?_
      intro hqp
      rw [hqp, hp] at hq
      exact hq rfl
  · by_cases hfull : ∀ p : Pos, g.get p ≠ 0
    · rw [add_random_tile_full g k b hfull]
    · push_neg at hfull
      obtain ⟨p, hp, e⟩ := add_random_tile_spawn g k b hfull
      rw [e, countNonzero_set g p _ hp hvb]
      omega
  · by_cases hfull : ∀ p : Pos, g.get p ≠ 0
    · rw [add_random_tile_full g k b hfull]
      omega
    · push_neg at hfull
      obtain ⟨p, hp, e⟩ := add_random_tile_spawn g k b hfull
      rw [e, countNonzero_set g p _ hp hvb]

/-- Witness for C6 at a concrete input: spawning on the all-zero grid
fills exactly one cell. -/
theorem claim_C6_witness :
    (∃ p : Pos, zeroGrid.get p = 0)
    ∧ ∃ p : Pos, zeroGrid.get p = 0
        ∧ ((add_random_tile zeroGrid 0 true).get p = 2
            ∨ (add_random_tile zeroGrid 0 true).get p = 4)
        ∧ (∀ q : Pos, q ≠ p → (add_random_tile zeroGrid 0 true).get q = zeroGrid.get q)
        ∧ countNonzero (add_random_tile zeroGrid 0 true) = countNonzero zeroGrid + 1 :=
  ⟨⟨((0 : Fin 4), (0 : Fin 4)), rfl⟩,
    (claim_C6 zeroGrid 0 true).2.1 ⟨((0 : Fin 4), (0 : Fin 4)), rfl⟩⟩

/-- C7: every non-zero cell always holds a power of 2 that is at least 2:
this holds for the grids produced by `GameState.new` and `restart_game`,
and is preserved by every `move_tiles` call and every `add_random_tile`
call starting from a grid that satisfies it. -/
theorem claim_C7 :
    (∀ (k1 k2 : Nat) (b1 b2 : Bool), powGrid (GameState.new k1 k2 b1 b2).grid)
    ∧ (∀ (s : GameState) (k1 k2 : Nat) (b1 b2 : Bool),
        powGrid (restart_game s k1 k2 b1 b2).grid)
    ∧ (∀ (d : Direction) (g : Grid), powGrid g → powGrid (move_tiles d g).1)
    ∧ (∀ (g : Grid) (k : Nat) (b : Bool), powGrid g → powGrid (add_random_tile g k b)) := by
  refine ⟨?_, ?_, powGrid_move_tiles, powGrid_spawn⟩
  · intro k1 k2 b1 b2
    exact powGrid_spawn _ k2 b2 (powGrid_spawn _ k1 b1 powGrid_zero)
  · intro s k1 k2 b1 b2
    exact powGrid_spawn _ k2 b2 (powGrid_spawn _ k1 b1 powGrid_zero)

/-- Witness for C7 at a concrete input: the scenario grid is all powers
of two, and stays so after a rightward move. -/
theorem claim_C7_witness :
    powGrid gridScenario ∧ powGrid (move_tiles .Right gridScenario).1 := by
  have hz : powRow zeroRow := by
    refine ⟨?_, ?_, ?_, ?_⟩ <;> exact fun h => absurd rfl h
  have hg : powGrid gridScenario := by
    refine ⟨⟨?_, ?_, ?_, ?_⟩, hz, hz, hz⟩
    · exact fun _ => ⟨1, by omega, rfl⟩
    · exact fun _ => ⟨1, by omega, rfl⟩
    · exact fun _ => ⟨2, by omega, rfl⟩
    · exact fun h => absurd rfl h
  exact ⟨hg, claim_C7.2.2.1 .Right gridScenario hg⟩

/-- C8: `GameState.new` and `restart_game` have the same observable
effect on the game core: the resulting grid is all zero except for
exactly two non-zero cells, each valued 2 or 4, and the game-over flag
is false; with the same random draws the two grids are identical. -/
theorem claim_C8 (k1 k2 : Nat) (b1 b2 : Bool) (s : GameState) :
    (countNonzero (GameState.new k1 k2 b1 b2).grid = 2
      ∧ (∀ p : Pos, (GameState.new k1 k2 b1 b2).grid.get p ≠ 0 →
          (GameState.new k1 k2 b1 b2).grid.get p = 2
            ∨ (GameState.new k1 k2 b1 b2).grid.get p = 4)
      ∧ (GameState.new k1 k2 b1 b2).game_over = false)
    ∧ (countNonzero (restart_game s k1 k2 b1 b2).grid = 2
      ∧ (∀ p : Pos, (restart_game s k1 k2 b1 b2).grid.get p ≠ 0 →
          (restart_game s k1 k2 b1 b2).grid.get p = 2
            ∨ (restart_game s k1 k2 b1 b2).grid.get p = 4)
      ∧ (restart_game s k1 k2 b1 b2).game_over = false)
    ∧ (GameState.new k1 k2 b1 b2).grid = (restart_game s k1 k2 b1 b2).grid := by
  obtain ⟨hc, hv⟩ := newGrid_spec k1 k2 b1 b2
  exact ⟨⟨hc, hv, rfl⟩, ⟨hc, hv, rfl⟩, rfl⟩

/-- Witness for C8 at a concrete input. -/
theorem claim_C8_witness :
    countNonzero (GameState.new 0 0 true true).grid = 2
    ∧ (GameState.new 0 0 true true).game_over = false :=
  ⟨(claim_C8 0 0 true true ⟨zeroGrid, [], false⟩).1.1,
    (claim_C8 0 0 true true ⟨zeroGrid, [], false⟩).1.2.2⟩

/-- C9: for any grid containing a row equal to `[2,2,4,0]` (all other
rows arbitrary), `move_tiles` with direction Right transforms that row
into `[0,0,4,4]` and returns `moved = true`. -/
theorem claim_C9 (g : Grid) (i : Fin 4) (h : g.row i = ⟨2, 2, 4, 0⟩) :
    ((move_tiles .Right g).1).row i = ⟨0, 0, 4, 4⟩
    ∧ (move_tiles .Right g).2 = true := by
  have key : procRight ⟨2, 2, 4, 0⟩ = ⟨⟨0, 0, 4, 4⟩, false, false, true, false, true⟩ := rfl
  fin_cases i <;>
    (simp only [Grid.row] at h
     refine ⟨?_, ?_⟩ <;> simp [move_tiles, move_right, Grid.row, h, key])

/-- Witness for C9 at a concrete input: the scenario grid itself. -/
theorem claim_C9_witness :
    gridScenario.row 0 = ⟨2, 2, 4, 0⟩
    ∧ (((move_tiles .Right gridScenario).1).row 0 = ⟨0, 0, 4, 4⟩
        ∧ (move_tiles .Right gridScenario).2 = true) :=
  ⟨rfl, claim_C9 gridScenario 0 rfl⟩

/-- C10: `move_tiles` mutates only the grid field of the game state: the
game-over flag and the color table are unchanged, and both the new grid
and the returned boolean are a pure function of the old grid alone — the
per-move `merged` matrix is created afresh inside each call (every line
pass starts from `initMState`, all flags false) and never persists. -/
theorem claim_C10 (s : GameState) (d : Direction) :
    (move_tiles_state s d).1.game_over = s.game_over
    ∧ (move_tiles_state s d).1.colors = s.colors
    ∧ (move_tiles_state s d).1.grid = (move_tiles d s.grid).1
    ∧ (move_tiles_state s d).2 = (move_tiles d s.grid).2 :=
  ⟨rfl, rfl, rfl, rfl⟩

end Game2048
